import Mathlib

/-!
Verification of the connection/process state-tracking and metrics-aggregation
engine of the tcpcount repository (src/core/monitor.rs, src/core/connection.rs,
src/core/process.rs, src/core/filters.rs).

Shallow embedding conventions:
* SystemTime is modelled as a natural number (monotone tick time); every call
  to SystemTime::now() inside one refresh is modelled as that refresh's single
  now value.
* The external snapshot source (netstat2's get_sockets_info, reverse DNS via
  resolve_addr_to_hostname, and sysinfo's process table) is modelled as an
  input Snapshot value: each socket entry carries the hostname that the
  external resolver returned for its remote address, and process metadata is a
  function from pid to optional ProcInfo.  A failed get_sockets_info call
  (the question-mark operator at the top of ConnectionMonitor::refresh) is
  modelled by passing none instead of a Snapshot.
* rand::random::<u64>() used by Connection::new is an external entropy source;
  it is modelled by a fresh_id field on each snapshot socket entry, the value
  the generator would return if that entry creates a connection.
* Rust HashMap<K, usize> counter maps are modelled as total functions K -> Nat
  with default 0.  This is exact for every operation the code performs:
  entry(k).or_insert(0) += 1 is pointwise update to f k + 1, and the close-time
  entry(k).or_insert(1) -= 1 agrees with truncated Nat subtraction on every
  state in which the counter never underflows (proved below for reachable
  states).
* HashMap<u64, Connection> is modelled as a List Connection together with
  HashMap insert semantics (replace on key collision, append otherwise); the
  iteration order of the list stands for the map's unspecified iteration
  order, and every fact proved below is order-insensitive.
-/

namespace TcpCount

abbrev SystemTime := Nat

/-- Remote IP address, abstracted to its textual rendering (the code only
compares addresses for equality and converts them to strings). -/
structure IpAddr where
  text : String
deriving DecidableEq

/-- netstat2 TcpState variants used by the code (LISTEN is filtered out). -/
inductive TcpState where
  | closed
  | listen
  | synSent
  | synReceived
  | established
  | finWait1
  | finWait2
  | closeWait
  | closing
  | lastAck
  | timeWait
  | deleteTcb
deriving DecidableEq

/-- src/core/connection.rs: struct Connection. -/
structure Connection where
  id : Nat
  pid : Nat
  local_port : Nat
  remote_port : Nat
  remote_addr : IpAddr
  remote_hostname : Option String
  state : TcpState
  first_seen : SystemTime
  last_seen : SystemTime
  closed : Bool
deriving DecidableEq

/-- src/core/connection.rs: Connection::new (the id argument stands for the
rand::random::<u64>() result; now for SystemTime::now()). -/
def Connection.new (id pid local_port remote_port : Nat) (remote_addr : IpAddr)
    (remote_hostname : Option String) (state : TcpState) (now : SystemTime) : Connection :=
  { id := id, pid := pid, local_port := local_port, remote_port := remote_port,
    remote_addr := remote_addr, remote_hostname := remote_hostname, state := state,
    first_seen := now, last_seen := now, closed := false }

/-- src/core/process.rs: struct Process. -/
structure Process where
  pid : Nat
  name : Option String
  exe : Option String
  current_memory_usage : Nat
  max_memory_usage : Nat
  first_seen : SystemTime
  last_seen : SystemTime
deriving DecidableEq

/-- src/core/process.rs: Process::new. -/
def Process.new (pid : Nat) (name : Option String) (exe : Option String)
    (memory_usage : Nat) (now : SystemTime) : Process :=
  { pid := pid, name := name, exe := exe, current_memory_usage := memory_usage,
    max_memory_usage := memory_usage, first_seen := now, last_seen := now }

/-- src/core/process.rs: Process::update (name/exe only overwritten when the
new value is present). -/
def Process.updateMeta (p : Process) (name : Option String) (exe : Option String)
    (memory_usage : Nat) (now : SystemTime) : Process :=
  { p with
    name := match name with | some n => some n | none => p.name,
    exe := match exe with | some e => some e | none => p.exe,
    current_memory_usage := memory_usage,
    max_memory_usage := max p.max_memory_usage memory_usage,
    last_seen := now }

/-- Substring containment, the model of Rust str::contains with a string
pattern (match at any character position). -/
def strContains (s pat : String) : Bool :=
  (List.range (s.data.length + 1)).any (fun i => pat.data.isPrefixOf (s.data.drop i))

/-- src/core/filters.rs: struct ConnectionFilter. -/
structure ConnectionFilter where
  pid : Option Nat
  process_name : Option String
  remote_host : Option String
  remote_port : Option Nat
deriving DecidableEq

/-- The pid check of matches_connection: present criterion requires exact
equality, absent criterion passes. -/
def pidCrit (fp : Option Nat) (cpid : Nat) : Bool :=
  match fp with
  | some pid => decide (cpid = pid)
  | none => true

/-- The process-name check of matches_connection: with a present criterion an
absent resolved name fails outright, a present name must contain the
substring. -/
def nameCrit (fn : Option String) (process_name : Option String) : Bool :=
  match fn, process_name with
  | some pf, some name => strContains name pf
  | some _, none => false
  | none, _ => true

/-- The remote-host check of matches_connection: a resolved hostname is tested
first and the literal address string is the fallback; with no hostname the
address string is tested directly. -/
def hostCrit (fh : Option String) (hostname : Option String) (addr : IpAddr) : Bool :=
  match fh with
  | some hf =>
    (match hostname with
     | some hn => strContains hn hf || strContains addr.text hf
     | none => strContains addr.text hf)
  | none => true

/-- The remote-port check of matches_connection. -/
def portCrit (fp : Option Nat) (cport : Nat) : Bool :=
  match fp with
  | some port => decide (cport = port)
  | none => true

/-- src/core/filters.rs: ConnectionFilter::matches_connection.  The Rust body
is a sequence of early-return checks, one per present criterion; the Boolean
conjunction below evaluates the same checks in the same order. -/
def ConnectionFilter.matches_connection (f : ConnectionFilter) (conn : Connection)
    (process_name : Option String) : Bool :=
  pidCrit f.pid conn.pid &&
  nameCrit f.process_name process_name &&
  hostCrit f.remote_host conn.remote_hostname conn.remote_addr &&
  portCrit f.remote_port conn.remote_port

/-- The empty filter (ConnectionFilter::new / Default). -/
def ConnectionFilter.empty : ConnectionFilter :=
  { pid := none, process_name := none, remote_host := none, remote_port := none }

/-- Process metadata delivered by the external sysinfo process table for one
pid (proc.name(), proc.exe(), proc.memory()). -/
structure ProcInfo where
  name : String
  exe : Option String
  memory : Nat
deriving DecidableEq

/-- One socket row of the external netstat2 snapshot, together with the
externally resolved hostname for its remote address and the id the external
random generator would assign if this row creates a connection. -/
structure SocketEntry where
  pids : List Nat
  local_port : Nat
  remote_port : Nat
  remote_addr : IpAddr
  state : TcpState
  hostname : Option String
  fresh_id : Nat
deriving DecidableEq

/-- One successful pull from the external snapshot source: the socket table,
the process table, and the tick timestamp. -/
structure Snapshot where
  sockets : List SocketEntry
  procs : Nat → Option ProcInfo
  now : SystemTime

/-- src/core/monitor.rs: struct ConnectionMetrics.  Counter HashMaps are
modelled as total functions with default 0. -/
structure ConnectionMetrics where
  total_connections_by_pid : Nat → Nat
  max_concurrent_by_pid : Nat → Nat
  current_concurrent_by_pid : Nat → Nat
  total_connections_by_host : String → Nat
  max_concurrent_by_host : String → Nat
  current_concurrent_by_host : String → Nat
  total_connections_by_process_host : Nat × String × Nat → Nat
  max_concurrent_by_process_host : Nat × String × Nat → Nat
  current_concurrent_by_process_host : Nat × String × Nat → Nat
  memory_history : Nat → List (SystemTime × Nat)
  sample_timestamps : List SystemTime

/-- src/core/monitor.rs: struct ConnectionMonitor (system_info is the external
process table and lives in the Snapshot input instead). -/
structure ConnectionMonitor where
  connections : List Connection
  historical_connections : List Connection
  processes : Nat → Option Process
  last_refresh : SystemTime
  metrics : ConnectionMetrics

/-- Pointwise update of a counter map. -/
def upd {K : Type} [DecidableEq K] (f : K → Nat) (k : K) (v : Nat) : K → Nat :=
  fun x => if x = k then v else f x

/-- The empty metrics record (ConnectionMonitor::new / ::reset). -/
def emptyMetrics : ConnectionMetrics :=
  { total_connections_by_pid := fun _ => 0
    max_concurrent_by_pid := fun _ => 0
    current_concurrent_by_pid := fun _ => 0
    total_connections_by_host := fun _ => 0
    max_concurrent_by_host := fun _ => 0
    current_concurrent_by_host := fun _ => 0
    total_connections_by_process_host := fun _ => 0
    max_concurrent_by_process_host := fun _ => 0
    current_concurrent_by_process_host := fun _ => 0
    memory_history := fun _ => []
    sample_timestamps := [] }

/-- The monitor state right after construction, before any refresh
(ConnectionMonitor::new up to the trailing refresh().ok() call, which is just
an ordinary first refresh). -/
def ConnectionMonitor.initState (t0 : SystemTime) : ConnectionMonitor :=
  { connections := [], historical_connections := [], processes := fun _ => none,
    last_refresh := t0, metrics := emptyMetrics }

/-- src/core/monitor.rs: ConnectionMonitor::reset. -/
def ConnectionMonitor.resetState (_m : ConnectionMonitor) (now : SystemTime) : ConnectionMonitor :=
  { connections := [], historical_connections := [], processes := fun _ => none,
    last_refresh := now, metrics := emptyMetrics }

/-- The host:port string key built by format!("{}:{}", hostname, port). -/
def hostKey (h : String) (port : Nat) : String :=
  h ++ ":" ++ toString port

/-- HashMap::insert keyed by Connection.id: replace on key collision, append
otherwise. -/
def insertConn (l : List Connection) (c : Connection) : List Connection :=
  if l.any (fun x => decide (x.id = c.id)) then
    l.map (fun x => if decide (x.id = c.id) then c else x)
  else
    l ++ [c]

/-- Push one element, then drop the oldest if the length exceeds 1000 — the
trimming pattern used for sample_timestamps and each memory_history series. -/
def pushTrim {A : Type} (l : List A) (a : A) : List A :=
  let l1 := l ++ [a]
  if l1.length > 1000 then l1.tail else l1

/-- src/core/monitor.rs: ConnectionMonitor::update_process_info (the sysinfo
lookup is the procs function of the current snapshot). -/
def updateProcessInfo (procs : Nat → Option ProcInfo) (now : SystemTime)
    (m : ConnectionMonitor) (pid : Nat) : ConnectionMonitor :=
  match procs pid with
  | none => m
  | some info =>
    let p' : Process :=
      match m.processes pid with
      | some p => p.updateMeta (some info.name) info.exe info.memory now
      | none => Process.new pid (some info.name) info.exe info.memory now
    { m with
      processes := fun x => if x = pid then some p' else m.processes x,
      metrics := { m.metrics with
        memory_history := fun x =>
          if x = pid then pushTrim (m.metrics.memory_history pid) (now, info.memory)
          else m.metrics.memory_history x } }

/-- The 4-tuple natural-key lookup of ConnectionMonitor::refresh (the find on
self.connections.iter(); note the Rust predicate does not test conn.closed). -/
def findConn (l : List Connection) (pid : Nat) (e : SocketEntry) : Option Connection :=
  l.find? (fun c =>
    decide (c.pid = pid) && decide (c.local_port = e.local_port) &&
    decide (c.remote_addr = e.remote_addr) && decide (c.remote_port = e.remote_port))

/-- In-place update of the map entry with the given id (HashMap::get_mut
followed by a mutation). -/
def updAt (l : List Connection) (cid : Nat) (f : Connection → Connection) : List Connection :=
  l.map (fun x => if decide (x.id = cid) then f x else x)

/-- Update of the matched connection in the Some branch of the reconciliation
loop: Connection::update_state on the entry with the matched id. -/
def updateStateAt (l : List Connection) (cid : Nat) (st : TcpState)
    (now : SystemTime) : List Connection :=
  updAt l cid (fun x => { x with state := st, last_seen := now })

/-- Bump a counter and raise the corresponding running maximum if the new
current value exceeds it — the increment-then-update-max pattern repeated for
each of the three key spaces in the None branch of the reconciliation loop. -/
def bumpWithMax {K : Type} [DecidableEq K] (tot cur mx : K → Nat) (k : K) :
    (K → Nat) × (K → Nat) × (K → Nat) :=
  let t := upd tot k (tot k + 1)
  let cu := upd cur k (cur k + 1)
  let mh := if cu k > mx k then upd mx k (cu k) else mx
  (t, cu, mh)

/-- The None branch of the reconciliation loop of ConnectionMonitor::refresh:
insert a fresh Connection and bump total/current (raising the maxima) for the
pid key always, and for the host:port and (pid, host, port) keys exactly when
a hostname was resolved. -/
def createConn (m : ConnectionMonitor) (pid : Nat) (e : SocketEntry)
    (now : SystemTime) : ConnectionMonitor :=
  let conn := Connection.new e.fresh_id pid e.local_port e.remote_port
    e.remote_addr e.hostname e.state now
  let mets := m.metrics
  let pidPart := bumpWithMax mets.total_connections_by_pid
    mets.current_concurrent_by_pid mets.max_concurrent_by_pid pid
  let hostPart :=
    match e.hostname with
    | some h => bumpWithMax mets.total_connections_by_host
        mets.current_concurrent_by_host mets.max_concurrent_by_host
        (hostKey h e.remote_port)
    | none => (mets.total_connections_by_host, mets.current_concurrent_by_host,
        mets.max_concurrent_by_host)
  let phPart :=
    match e.hostname with
    | some h => bumpWithMax mets.total_connections_by_process_host
        mets.current_concurrent_by_process_host mets.max_concurrent_by_process_host
        (pid, h, e.remote_port)
    | none => (mets.total_connections_by_process_host,
        mets.current_concurrent_by_process_host, mets.max_concurrent_by_process_host)
  { m with
    connections := insertConn m.connections conn,
    metrics := { mets with
      total_connections_by_pid := pidPart.1,
      current_concurrent_by_pid := pidPart.2.1,
      max_concurrent_by_pid := pidPart.2.2,
      total_connections_by_host := hostPart.1,
      current_concurrent_by_host := hostPart.2.1,
      max_concurrent_by_host := hostPart.2.2,
      total_connections_by_process_host := phPart.1,
      current_concurrent_by_process_host := phPart.2.1,
      max_concurrent_by_process_host := phPart.2.2 } }

/-- The body of the per-socket loop of ConnectionMonitor::refresh: one socket
row is reconciled against the monitor, threading the seen-this-tick id set. -/
def processEntry (procs : Nat → Option ProcInfo) (now : SystemTime)
    (st : ConnectionMonitor × List Nat) (e : SocketEntry) : ConnectionMonitor × List Nat :=
  let m := st.1
  let seen := st.2
  match e.pids with
  | [] => (m, seen)
  | pid :: _ =>
    match findConn m.connections pid e with
    | some c =>
      let m1 := { m with connections := updateStateAt m.connections c.id e.state now }
      (updateProcessInfo procs now m1 pid, c.id :: seen)
    | none =>
      (updateProcessInfo procs now (createConn m pid e now) pid, e.fresh_id :: seen)

/-- Closing one connection id in the to_close loop of
ConnectionMonitor::refresh: Connection::mark_closed, decrement of the
current-concurrent counters (entry(k).or_insert(1) -= 1, which on the
function-with-default-0 model is truncated subtraction), and the push of a
clone onto historical_connections.  The connection is not removed from the
live map — the Rust code keeps it there. -/
def closeApply (m : ConnectionMonitor) (c : Connection) (now : SystemTime) : ConnectionMonitor :=
  let closedC := { c with closed := true, last_seen := now }
  let mets := m.metrics
  let curP := upd mets.current_concurrent_by_pid c.pid
    (mets.current_concurrent_by_pid c.pid - 1)
  let hostPart :=
    match c.remote_hostname with
    | some h =>
      let k := hostKey h c.remote_port
      let kp : Nat × String × Nat := (c.pid, h, c.remote_port)
      (upd mets.current_concurrent_by_host k (mets.current_concurrent_by_host k - 1),
       upd mets.current_concurrent_by_process_host kp
         (mets.current_concurrent_by_process_host kp - 1))
    | none => (mets.current_concurrent_by_host, mets.current_concurrent_by_process_host)
  { m with
    connections := updAt m.connections c.id (fun _ => closedC),
    historical_connections := m.historical_connections ++ [closedC],
    metrics := { mets with
      current_concurrent_by_pid := curP,
      current_concurrent_by_host := hostPart.1,
      current_concurrent_by_process_host := hostPart.2 } }

/-- One iteration of the to_close loop: look the id up in the live map
(get_mut) and apply the close mutation to the found connection.  The find?
predicate guarantees the found connection carries exactly the requested id. -/
def closeOne (now : SystemTime) (m : ConnectionMonitor) (cid : Nat) : ConnectionMonitor :=
  match m.connections.find? (fun c => decide (c.id = cid)) with
  | none => m
  | some c => closeApply m c now

/-- The non-listen socket rows of a snapshot (the filter on
tcp_si.state != TcpState::Listen). -/
def entriesOf (s : Snapshot) : List SocketEntry :=
  s.sockets.filter (fun e => decide (e.state ≠ TcpState.listen))

/-- The per-socket reconciliation loop of ConnectionMonitor::refresh, as a
fold returning the updated monitor and the seen-this-tick connection ids. -/
def scanState (m : ConnectionMonitor) (s : Snapshot) : ConnectionMonitor × List Nat :=
  (entriesOf s).foldl (processEntry s.procs s.now) (m, [])

/-- The to_close id list of ConnectionMonitor::refresh: ids of connections
neither seen this tick nor already closed. -/
def toCloseList (m : ConnectionMonitor) (seen : List Nat) : List Nat :=
  (m.connections.filter (fun c => !(seen.contains c.id) && !c.closed)).map (fun c => c.id)

/-- The successful body of ConnectionMonitor::refresh after the socket fetch
succeeded: reconcile every socket row, close the unseen connections, push the
tick timestamp with FIFO trimming, and record last_refresh. -/
def refreshOk (m : ConnectionMonitor) (s : Snapshot) : ConnectionMonitor :=
  let scanned := scanState m s
  let m1 := scanned.1
  let m2 := (toCloseList m1 scanned.2).foldl (closeOne s.now) m1
  { m2 with
    metrics := { m2.metrics with
      sample_timestamps := pushTrim m2.metrics.sample_timestamps s.now },
    last_refresh := s.now }

/-- src/core/monitor.rs: ConnectionMonitor::refresh.  The very first fallible
statement is the get_sockets_info call behind the question-mark operator; a
failed fetch is modelled by a none input and returns before any state is
touched.  The Bool result records whether the tick ran. -/
def ConnectionMonitor.refresh (m : ConnectionMonitor) (fetch : Option Snapshot) :
    ConnectionMonitor × Bool :=
  match fetch with
  | none => (m, false)
  | some s => (refreshOk m s, true)

/-- The live-plus-historical scan shared by the metrics views. -/
def allConnections (m : ConnectionMonitor) : List Connection :=
  m.connections ++ m.historical_connections

/-- The active-at-timestamp test of get_connection_history_filtered. -/
def wasActive (c : Connection) (t : SystemTime) : Bool :=
  decide (c.first_seen ≤ t) && (decide (t ≤ c.last_seen) || !c.closed)

/-- The per-connection filter evaluation used by the views: the process name
is looked up in the registry's process table. -/
def matchesInMonitor (m : ConnectionMonitor) (f : ConnectionFilter) (c : Connection) : Bool :=
  f.matches_connection c ((m.processes c.pid).bind (fun p => p.name))

/-- src/core/monitor.rs: ConnectionMonitor::get_connection_history_filtered. -/
def get_connection_history_filtered (m : ConnectionMonitor) (f : ConnectionFilter)
    (start_time end_time : Option SystemTime) : List (SystemTime × Nat) :=
  m.metrics.sample_timestamps.foldl
    (fun acc t =>
      if (match start_time with | some st => decide (t < st) | none => false) then acc
      else if (match end_time with | some en => decide (en < t) | none => false) then acc
      else acc ++ [(t, (allConnections m).countP
        (fun c => wasActive c t && matchesInMonitor m f c))])
    []

/-! ### Concrete three-tick scenario

One connection (pid 10, local port 5000, remote 9.9.9.9:443, no resolved
hostname) appears in tick 1, vanishes in tick 2, and the identical 4-tuple
reappears in tick 3. -/

/-- The socket row of the scenario. -/
def exEntry : SocketEntry :=
  { pids := [10], local_port := 5000, remote_port := 443, remote_addr := ⟨"9.9.9.9"⟩,
    state := .established, hostname := none, fresh_id := 1 }

/-- A process table with no resolvable pids. -/
def noProcs : Nat → Option ProcInfo := fun _ => none

/-- Tick 1: the connection is present. -/
def exSnap1 : Snapshot := { sockets := [exEntry], procs := noProcs, now := 1 }

/-- Tick 2: the socket table is empty, so the connection closes. -/
def exSnap2 : Snapshot := { sockets := [], procs := noProcs, now := 2 }

/-- Tick 3: the identical 4-tuple reappears (fresh_id 2 would be consumed if a
new connection were created). -/
def exSnap3 : Snapshot :=
  { sockets := [{ exEntry with fresh_id := 2 }], procs := noProcs, now := 3 }

/-- Tick 3 variant in which the reintroduced socket is in a different TCP
state. -/
def exSnap3f : Snapshot :=
  { sockets := [{ exEntry with state := .finWait1, fresh_id := 2 }],
    procs := noProcs, now := 3 }

/-- Monitor after tick 1. -/
def exM1 : ConnectionMonitor := refreshOk (ConnectionMonitor.initState 0) exSnap1

/-- Monitor after tick 2 (the connection is now closed). -/
def exM2 : ConnectionMonitor := refreshOk exM1 exSnap2

/-- Monitor after tick 3. -/
def exM3 : ConnectionMonitor := refreshOk exM2 exSnap3

/-- Monitor after the tick 3 variant. -/
def exM3f : ConnectionMonitor := refreshOk exM2 exSnap3f

/-- Claim C1.  The claim says a snapshot entry whose natural key matches only
a previously closed connection creates a new Connection record with a fresh id
and bumps pid total-opened to 2.  On this code the closed record is never
removed from the live map and the 4-tuple lookup does not test the closed
flag, so the stale closed record is matched and merely updated: after close
and reintroduction the registry still holds exactly the original record
(id 1, still closed), no new record exists, and pid-10 total-opened is still
1 instead of 2. -/
theorem reintroduced_tuple_matches_stale_closed_record :
    exM3.connections.map (fun c => (c.id, c.closed)) = [(1, true)] ∧
    exM3.metrics.total_connections_by_pid 10 = 1 ∧
    exM3.metrics.current_concurrent_by_pid 10 = 0 ∧
    exM3.historical_connections.map (fun c => c.id) = [1] := by
  decide

/-- Claim C2.  The claim says a closed connection is moved into the historical
list, never mutated afterwards, and appears exactly once in the live plus
historical concatenation.  The code pushes a clone onto the historical list
while keeping the closed record in the live map, so after the close tick the
connection id appears twice in the concatenation; and a later tick that
reintroduces its 4-tuple mutates the closed record in place (TCP state and
last-seen change from established/2 to finWait1/3 while closed stays true). -/
theorem closed_connection_duplicated_and_mutated :
    (exM2.connections ++ exM2.historical_connections).countP
      (fun c => decide (c.id = 1)) = 2 ∧
    exM2.connections.map (fun c => (c.closed, c.state, c.last_seen)) =
      [(true, .established, 2)] ∧
    exM3f.connections.map (fun c => (c.closed, c.state, c.last_seen)) =
      [(true, .finWait1, 3)] := by
  decide

/-- Claim C7: a failed socket fetch (the question-mark operator on
get_sockets_info, the first fallible statement of refresh) returns the error
before any state is touched: the monitor is returned unchanged and the tick is
reported as skipped. -/
theorem refresh_error_leaves_state_untouched (m : ConnectionMonitor) :
    ConnectionMonitor.refresh m none = (m, false) := by
  rfl

/-- Claim C8.  The structural part of the claim holds (one pair per retained
in-window timestamp, in order, with the stated activity predicate), but the
count is taken over the live-map plus historical concatenation, in which a
closed connection is present twice; so at both retained timestamps of the
scenario the view reports 2 although only one distinct connection (one id)
is scanned, where the claim requires the number of connections, 1. -/
theorem history_counts_closed_connection_twice :
    get_connection_history_filtered exM2 ConnectionFilter.empty none none =
      [(1, 2), (2, 2)] ∧
    ((allConnections exM2).map (fun c => c.id)).dedup = [1] ∧
    ((allConnections exM2).filter
      (fun c => wasActive c 1 && matchesInMonitor exM2 ConnectionFilter.empty c)).map
        (fun c => c.id) = [1, 1] := by
  decide

/-! ### Claim C5: the filter predicate -/

/-- Characterization of the pid check. -/
theorem pidCrit_eq_true (fp : Option Nat) (cpid : Nat) :
    pidCrit fp cpid = true ↔ ∀ p, fp = some p → cpid = p := by
  cases fp <;> simp [pidCrit]

/-- Characterization of the process-name check. -/
theorem nameCrit_eq_true (fn : Option String) (pn : Option String) :
    nameCrit fn pn = true ↔
      ∀ s, fn = some s → ∃ nm, pn = some nm ∧ strContains nm s = true := by
  cases fn <;> cases pn <;> simp [nameCrit]

/-- Characterization of the remote-host check. -/
theorem hostCrit_eq_true (fh : Option String) (ho : Option String) (addr : IpAddr) :
    hostCrit fh ho addr = true ↔
      ∀ h, fh = some h →
        ((∃ hn, ho = some hn ∧ strContains hn h = true) ∨
         strContains addr.text h = true) := by
  cases fh <;> cases ho <;> simp [hostCrit]

/-- Characterization of the remote-port check. -/
theorem portCrit_eq_true (fp : Option Nat) (cport : Nat) :
    portCrit fp cport = true ↔ ∀ p, fp = some p → cport = p := by
  cases fp <;> simp [portCrit]

/-- Claim C5: matches_connection returns true iff every present criterion
passes and absent criteria are ignored — pid and port by exact equality, the
name criterion failing whenever no resolved name exists, the host criterion
testing the hostname first with the literal address string as fallback;
moreover a filter with all four criteria set equals the conjunction of the
four single-criterion evaluations, and the empty filter matches everything. -/
theorem matches_connection_characterization :
    (∀ (f : ConnectionFilter) (c : Connection) (pn : Option String),
      f.matches_connection c pn = true ↔
        ((∀ p, f.pid = some p → c.pid = p) ∧
         (∀ s, f.process_name = some s → ∃ nm, pn = some nm ∧ strContains nm s = true) ∧
         (∀ h, f.remote_host = some h →
           ((∃ hn, c.remote_hostname = some hn ∧ strContains hn h = true) ∨
            strContains c.remote_addr.text h = true)) ∧
         (∀ p, f.remote_port = some p → c.remote_port = p))) ∧
    (∀ (c : Connection) (pn : Option String) (pid : Nat) (nm h : String) (port : Nat),
      ConnectionFilter.matches_connection ⟨some pid, some nm, some h, some port⟩ c pn =
        (ConnectionFilter.matches_connection ⟨some pid, none, none, none⟩ c pn &&
         ConnectionFilter.matches_connection ⟨none, some nm, none, none⟩ c pn &&
         ConnectionFilter.matches_connection ⟨none, none, some h, none⟩ c pn &&
         ConnectionFilter.matches_connection ⟨none, none, none, some port⟩ c pn)) ∧
    (∀ (c : Connection) (pn : Option String),
      ConnectionFilter.empty.matches_connection c pn = true) := by
  refine ⟨?_, ?_, ?_⟩
  · intro f c pn
    simp only [ConnectionFilter.matches_connection, Bool.and_eq_true,
      pidCrit_eq_true, nameCrit_eq_true, hostCrit_eq_true, portCrit_eq_true]
    tauto
  · intro c pn pid nm h port
    simp only [ConnectionFilter.matches_connection, pidCrit, nameCrit, hostCrit, portCrit,
      Bool.and_true, Bool.true_and]
  · intro c pn
    rfl

/-! ### Claim C6: bounded FIFO retention of the history series -/

/-- The last n elements of a list (the FIFO window retained by pushTrim). -/
def lastN {A : Type} (n : Nat) (l : List A) : List A :=
  l.drop (l.length - n)

theorem lastN_length_le {A : Type} (n : Nat) (l : List A) : (lastN n l).length ≤ n := by
  simp only [lastN, List.length_drop]
  omega

theorem lastN_of_length_le {A : Type} {n : Nat} {l : List A} (h : l.length ≤ n) :
    lastN n l = l := by
  have hz : l.length - n = 0 := by omega
  simp [lastN, hz]

theorem pushTrim_eq_lastN {A : Type} {l : List A} (a : A) (h : l.length ≤ 1000) :
    pushTrim l a = lastN 1000 (l ++ [a]) := by
  unfold pushTrim lastN
  simp only [List.length_append, List.length_singleton]
  by_cases hlen : 1000 < l.length + 1
  · rw [if_pos hlen]
    have h2 : l.length + 1 - 1000 = 1 := by omega
    rw [h2, List.drop_one]
  · rw [if_neg hlen]
    have h2 : l.length + 1 - 1000 = 0 := by omega
    rw [h2, List.drop_zero]

theorem pushTrim_lastN {A : Type} (xs : List A) (a : A) :
    pushTrim (lastN 1000 xs) a = lastN 1000 (xs ++ [a]) := by
  rcases le_or_lt xs.length 1000 with hle | hlt
  · rw [lastN_of_length_le hle, pushTrim_eq_lastN a hle]
  · have hlen : (lastN 1000 xs).length = 1000 := by
      simp only [lastN, List.length_drop]
      omega
    rw [pushTrim_eq_lastN a (by omega)]
    unfold lastN
    simp only [List.length_append, List.length_singleton, List.length_drop]
    have h2 : xs.length - (xs.length - 1000) + 1 - 1000 = 1 := by omega
    rw [h2]
    have hL : 1 ≤ (xs.drop (xs.length - 1000)).length := by
      simp only [List.length_drop]
      omega
    have hR : xs.length + 1 - 1000 ≤ xs.length := by omega
    rw [List.drop_append_of_le_length hL, List.drop_append_of_le_length hR,
      List.drop_drop]
    have h3 : xs.length - 1000 + 1 = xs.length + 1 - 1000 := by omega
    rw [h3]

theorem foldl_pushTrim_lastN {A : Type} (ys xs : List A) :
    ys.foldl pushTrim (lastN 1000 xs) = lastN 1000 (xs ++ ys) := by
  induction ys generalizing xs with
  | nil => simp
  | cons a ys ih =>
    rw [List.foldl_cons, pushTrim_lastN, ih, List.append_assoc, List.singleton_append]

/-- The memory sample that one socket row contributes to pid p's series (the
append performed by update_process_info when the row's first associated pid is
p and the process table resolves p). -/
def entrySample (procs : Nat → Option ProcInfo) (now : SystemTime) (p : Nat)
    (e : SocketEntry) : Option (SystemTime × Nat) :=
  match e.pids with
  | [] => none
  | pid :: _ => if pid = p then (procs p).map (fun info => (now, info.memory)) else none

/-- All memory samples one refresh appends to pid p's series, in order. -/
def memSamples (s : Snapshot) (p : Nat) : List (SystemTime × Nat) :=
  (entriesOf s).filterMap (entrySample s.procs s.now p)

theorem createConn_memory (m : ConnectionMonitor) (pid : Nat) (e : SocketEntry)
    (now : SystemTime) :
    (createConn m pid e now).metrics.memory_history = m.metrics.memory_history := rfl

theorem createConn_timestamps (m : ConnectionMonitor) (pid : Nat) (e : SocketEntry)
    (now : SystemTime) :
    (createConn m pid e now).metrics.sample_timestamps = m.metrics.sample_timestamps := rfl

theorem updateProcessInfo_memory (procs : Nat → Option ProcInfo) (now : SystemTime)
    (m : ConnectionMonitor) (pid p : Nat) :
    (updateProcessInfo procs now m pid).metrics.memory_history p =
      (if pid = p then
        (match procs p with
         | some info => pushTrim (m.metrics.memory_history p) (now, info.memory)
         | none => m.metrics.memory_history p)
       else m.metrics.memory_history p) := by
  have hsym : ¬pid = p → ¬p = pid := fun hn he => hn he.symm
  by_cases hp : pid = p
  · subst hp
    cases h : procs pid <;> simp [updateProcessInfo, h]
  · cases h : procs pid <;> simp [updateProcessInfo, h, hp, hsym hp]

theorem processEntry_memory (procs : Nat → Option ProcInfo) (now : SystemTime)
    (st : ConnectionMonitor × List Nat) (e : SocketEntry) (p : Nat) :
    ((processEntry procs now st e).1).metrics.memory_history p =
      (match entrySample procs now p e with
       | some a => pushTrim (st.1.metrics.memory_history p) a
       | none => st.1.metrics.memory_history p) := by
  obtain ⟨m, seen⟩ := st
  unfold processEntry entrySample
  dsimp only
  cases hpids : e.pids with
  | nil => rfl
  | cons pid rest =>
    dsimp only
    cases hfind : findConn m.connections pid e with
    | some c =>
      dsimp only
      rw [updateProcessInfo_memory]
      by_cases hp : pid = p
      · subst hp
        cases h : procs pid <;> simp [h]
      · simp [hp]
    | none =>
      dsimp only
      rw [updateProcessInfo_memory]
      by_cases hp : pid = p
      · subst hp
        cases h : procs pid <;> simp [h, createConn_memory]
      · simp [hp, createConn_memory]

theorem foldEntries_memory (procs : Nat → Option ProcInfo) (now : SystemTime)
    (es : List SocketEntry) (st : ConnectionMonitor × List Nat) (p : Nat) :
    ((es.foldl (processEntry procs now) st).1).metrics.memory_history p =
      (es.filterMap (entrySample procs now p)).foldl pushTrim
        (st.1.metrics.memory_history p) := by
  induction es generalizing st with
  | nil => rfl
  | cons e es ih =>
    rw [List.foldl_cons, List.filterMap_cons, ih]
    cases h : entrySample procs now p e with
    | none =>
      have := processEntry_memory procs now st e p
      rw [h] at this
      rw [this]
    | some a =>
      have := processEntry_memory procs now st e p
      rw [h] at this
      rw [List.foldl_cons, this]

theorem closeOne_memory (now : SystemTime) (m : ConnectionMonitor) (cid : Nat) :
    (closeOne now m cid).metrics.memory_history = m.metrics.memory_history := by
  unfold closeOne
  cases h : m.connections.find? (fun c => decide (c.id = cid)) <;> rfl

theorem closeFold_memory (now : SystemTime) (l : List Nat) (m : ConnectionMonitor) :
    (l.foldl (closeOne now) m).metrics.memory_history = m.metrics.memory_history := by
  induction l generalizing m with
  | nil => rfl
  | cons cid l ih => rw [List.foldl_cons, ih, closeOne_memory]

theorem refreshOk_memory (m : ConnectionMonitor) (s : Snapshot) (p : Nat) :
    (refreshOk m s).metrics.memory_history p =
      (memSamples s p).foldl pushTrim (m.metrics.memory_history p) := by
  unfold refreshOk memSamples
  simp only [closeFold_memory, scanState, foldEntries_memory]

theorem processEntry_timestamps (procs : Nat → Option ProcInfo) (now : SystemTime)
    (st : ConnectionMonitor × List Nat) (e : SocketEntry) :
    ((processEntry procs now st e).1).metrics.sample_timestamps =
      st.1.metrics.sample_timestamps := by
  obtain ⟨m, seen⟩ := st
  unfold processEntry
  dsimp only
  cases hpids : e.pids with
  | nil => rfl
  | cons pid rest =>
    dsimp only
    cases hfind : findConn m.connections pid e with
    | some c =>
      dsimp only
      cases h : procs pid <;> simp [updateProcessInfo, h]
    | none =>
      dsimp only
      cases h : procs pid <;> simp [updateProcessInfo, h, createConn_timestamps,
        createConn_memory]

theorem foldEntries_timestamps (procs : Nat → Option ProcInfo) (now : SystemTime)
    (es : List SocketEntry) (st : ConnectionMonitor × List Nat) :
    ((es.foldl (processEntry procs now) st).1).metrics.sample_timestamps =
      st.1.metrics.sample_timestamps := by
  induction es generalizing st with
  | nil => rfl
  | cons e es ih => rw [List.foldl_cons, ih, processEntry_timestamps]

theorem closeOne_timestamps (now : SystemTime) (m : ConnectionMonitor) (cid : Nat) :
    (closeOne now m cid).metrics.sample_timestamps = m.metrics.sample_timestamps := by
  unfold closeOne
  cases h : m.connections.find? (fun c => decide (c.id = cid)) <;> rfl

theorem closeFold_timestamps (now : SystemTime) (l : List Nat) (m : ConnectionMonitor) :
    (l.foldl (closeOne now) m).metrics.sample_timestamps = m.metrics.sample_timestamps := by
  induction l generalizing m with
  | nil => rfl
  | cons cid l ih => rw [List.foldl_cons, ih, closeOne_timestamps]

theorem refreshOk_timestamps (m : ConnectionMonitor) (s : Snapshot) :
    (refreshOk m s).metrics.sample_timestamps =
      pushTrim m.metrics.sample_timestamps s.now := by
  unfold refreshOk
  simp only [closeFold_timestamps, scanState, foldEntries_timestamps]

theorem foldRefresh_timestamps (ss : List Snapshot) (m : ConnectionMonitor) :
    (ss.foldl refreshOk m).metrics.sample_timestamps =
      (ss.map Snapshot.now).foldl pushTrim m.metrics.sample_timestamps := by
  induction ss generalizing m with
  | nil => rfl
  | cons s ss ih => rw [List.foldl_cons, ih, List.map_cons, List.foldl_cons,
      refreshOk_timestamps]

theorem foldRefresh_memory (ss : List Snapshot) (m : ConnectionMonitor) (p : Nat) :
    (ss.foldl refreshOk m).metrics.memory_history p =
      ((ss.map (fun s => memSamples s p)).flatten).foldl pushTrim
        (m.metrics.memory_history p) := by
  induction ss generalizing m with
  | nil => rfl
  | cons s ss ih =>
    rw [List.foldl_cons, ih, List.map_cons, List.flatten_cons, List.foldl_append,
      refreshOk_memory]

/-- Claim C6: after any sequence of refreshes from a fresh monitor, the
poll-timestamp series is exactly the last (at most 1000) tick timestamps, and
every pid's memory series is exactly the last (at most 1000) samples appended
for that pid, independently per pid — FIFO eviction past 1000 entries. -/
theorem bounded_retention (ss : List Snapshot) (t0 : SystemTime) :
    ((ss.foldl refreshOk (ConnectionMonitor.initState t0)).metrics.sample_timestamps =
        lastN 1000 (ss.map Snapshot.now) ∧
      (ss.foldl refreshOk (ConnectionMonitor.initState t0)).metrics.sample_timestamps.length
        ≤ 1000) ∧
    ∀ p : Nat,
      (ss.foldl refreshOk (ConnectionMonitor.initState t0)).metrics.memory_history p =
        lastN 1000 ((ss.map (fun s => memSamples s p)).flatten) ∧
      ((ss.foldl refreshOk (ConnectionMonitor.initState t0)).metrics.memory_history p).length
        ≤ 1000 := by
  have hts : (ss.foldl refreshOk (ConnectionMonitor.initState t0)).metrics.sample_timestamps =
      lastN 1000 (ss.map Snapshot.now) := by
    rw [foldRefresh_timestamps]
    have : (ConnectionMonitor.initState t0).metrics.sample_timestamps =
        lastN 1000 ([] : List SystemTime) := rfl
    rw [this, foldl_pushTrim_lastN, List.nil_append]
  refine ⟨⟨hts, ?_⟩, fun p => ?_⟩
  · rw [hts]; exact lastN_length_le _ _
  · have hm : (ss.foldl refreshOk (ConnectionMonitor.initState t0)).metrics.memory_history p =
        lastN 1000 ((ss.map (fun s => memSamples s p)).flatten) := by
      rw [foldRefresh_memory]
      have : (ConnectionMonitor.initState t0).metrics.memory_history p =
          lastN 1000 ([] : List (SystemTime × Nat)) := rfl
      rw [this, foldl_pushTrim_lastN, List.nil_append]
    exact ⟨hm, by rw [hm]; exact lastN_length_le _ _⟩

/-! ### Counter invariants (claims C3, C9, C10) -/

/-- The ids of the live map's connections. -/
def idsOf (l : List Connection) : List Nat := l.map (fun c => c.id)

/-- The host:port counter key a connection contributes to, when it has a
resolved hostname. -/
def hostKeyOf (c : Connection) : Option String :=
  c.remote_hostname.map (fun h => hostKey h c.remote_port)

/-- The (pid, host, port) counter key a connection contributes to, when it has
a resolved hostname. -/
def phKeyOf (c : Connection) : Option (Nat × String × Nat) :=
  c.remote_hostname.map (fun h => (c.pid, h, c.remote_port))

/-- Number of non-closed connections of a pid in a connection list. -/
def pidOpenCount (l : List Connection) (p : Nat) : Nat :=
  l.countP (fun c => !c.closed && decide (c.pid = p))

/-- Number of non-closed connections contributing to a host:port key. -/
def hostOpenCount (l : List Connection) (k : String) : Nat :=
  l.countP (fun c => !c.closed && decide (hostKeyOf c = some k))

/-- Number of non-closed connections contributing to a (pid, host, port) key. -/
def phOpenCount (l : List Connection) (k : Nat × String × Nat) : Nat :=
  l.countP (fun c => !c.closed && decide (phKeyOf c = some k))

/-- The registry invariant maintained by refresh: connection ids are distinct,
each current-concurrent counter equals the number of non-closed connections
holding its key, and every historical entry is closed. -/
structure Inv (m : ConnectionMonitor) : Prop where
  nodup : (idsOf m.connections).Nodup
  pid_eq : ∀ p, m.metrics.current_concurrent_by_pid p = pidOpenCount m.connections p
  host_eq : ∀ k, m.metrics.current_concurrent_by_host k = hostOpenCount m.connections k
  ph_eq : ∀ k, m.metrics.current_concurrent_by_process_host k =
    phOpenCount m.connections k
  hist_closed : ∀ c ∈ m.historical_connections, c.closed = true

/-- The external random generator returned ids that are pairwise distinct and
unused — the property rand::random::<u64>() delivers with overwhelming
probability, which the code's HashMap insertions silently assume. -/
def FreshSnap (m : ConnectionMonitor) (s : Snapshot) : Prop :=
  (s.sockets.map (fun e => e.fresh_id)).Nodup ∧
  ∀ i ∈ s.sockets.map (fun e => e.fresh_id), i ∉ idsOf m.connections

instance (m : ConnectionMonitor) (s : Snapshot) : Decidable (FreshSnap m s) := by
  unfold FreshSnap
  infer_instance

/-- States reachable by successful refreshes with fresh random ids, and
resets, from a new monitor.  Failed refreshes leave the state unchanged and
need no constructor. -/
inductive ReachableFresh : ConnectionMonitor → Prop where
  | init (t0 : SystemTime) : ReachableFresh (ConnectionMonitor.initState t0)
  | step (m : ConnectionMonitor) (s : Snapshot) : ReachableFresh m → FreshSnap m s →
      ReachableFresh (refreshOk m s)
  | reset (m : ConnectionMonitor) (now : SystemTime) : ReachableFresh m →
      ReachableFresh (m.resetState now)

theorem updAt_of_forall_ne (l : List Connection) (cid : Nat)
    (f : Connection → Connection) (h : ∀ x ∈ l, x.id ≠ cid) : updAt l cid f = l := by
  induction l with
  | nil => rfl
  | cons a l ih =>
    have ha : ¬(a.id = cid) := h a (List.mem_cons_self a l)
    have hl : updAt l cid f = l := ih (fun x hx => h x (List.mem_cons_of_mem a hx))
    show (if decide (a.id = cid) then f a else a) :: updAt l cid f = a :: l
    rw [hl, if_neg (by simpa using ha)]

theorem idsOf_updAt (l : List Connection) (cid : Nat) (f : Connection → Connection)
    (hid : ∀ x, x.id = cid → (f x).id = x.id) : idsOf (updAt l cid f) = idsOf l := by
  unfold idsOf updAt
  rw [List.map_map]
  apply List.map_congr_left
  intro x _
  by_cases hx : x.id = cid
  · simp [hx, hid x hx]
  · simp [hx]

theorem countP_updAt_congr (l : List Connection) (cid : Nat)
    (f : Connection → Connection) (pred : Connection → Bool)
    (h : ∀ x, pred (f x) = pred x) :
    (updAt l cid f).countP pred = l.countP pred := by
  unfold updAt
  rw [List.countP_map]
  apply List.countP_congr
  intro x _
  by_cases hx : x.id = cid <;> simp [Function.comp, hx, h]

theorem countP_updAt (l : List Connection) (cid : Nat) (f : Connection → Connection)
    (pred : Connection → Bool) (c : Connection)
    (hnd : (idsOf l).Nodup) (hfind : l.find? (fun x => decide (x.id = cid)) = some c) :
    (updAt l cid f).countP pred + (if pred c then 1 else 0)
      = l.countP pred + (if pred (f c) then 1 else 0) := by
  induction l with
  | nil => simp at hfind
  | cons a l ih =>
    have hshape : updAt (a :: l) cid f
        = (if decide (a.id = cid) then f a else a) :: updAt l cid f := rfl
    by_cases ha : a.id = cid
    · rw [List.find?_cons_of_pos _ (by simpa using ha)] at hfind
      obtain rfl : a = c := by simpa using hfind
      have hnotin : ∀ x ∈ l, x.id ≠ cid := by
        intro x hx he
        rw [idsOf, List.map_cons, List.nodup_cons] at hnd
        exact hnd.1 (by rw [ha, ← he]; exact List.mem_map_of_mem _ hx)
      have hl : updAt l cid f = l := updAt_of_forall_ne l cid f hnotin
      rw [hshape, hl, if_pos (by simpa using ha), List.countP_cons, List.countP_cons]
      omega
    · rw [List.find?_cons_of_neg _ (by simpa using ha)] at hfind
      rw [idsOf, List.map_cons, List.nodup_cons] at hnd
      have hrec := ih hnd.2 hfind
      rw [hshape, if_neg (by simpa using ha), List.countP_cons, List.countP_cons]
      omega

theorem find?_id_of_nodup (l : List Connection) (c : Connection)
    (hnd : (idsOf l).Nodup) (hmem : c ∈ l) :
    l.find? (fun x => decide (x.id = c.id)) = some c := by
  induction l with
  | nil => simp at hmem
  | cons a l ih =>
    rw [idsOf, List.map_cons, List.nodup_cons] at hnd
    by_cases ha : a.id = c.id
    · rw [List.find?_cons_of_pos _ (by simpa using ha)]
      rcases List.mem_cons.mp hmem with rfl | hmem'
      · rfl
      · exact absurd (by rw [ha]; exact List.mem_map_of_mem _ hmem') hnd.1
    · rw [List.find?_cons_of_neg _ (by simpa using ha)]
      rcases List.mem_cons.mp hmem with rfl | hmem'
      · exact absurd rfl ha
      · exact ih hnd.2 hmem'

theorem insertConn_of_fresh (l : List Connection) (c : Connection)
    (h : c.id ∉ idsOf l) : insertConn l c = l ++ [c] := by
  unfold insertConn
  rw [if_neg]
  intro hany
  rcases List.any_eq_true.mp hany with ⟨x, hx, hxe⟩
  have hxc : x.id = c.id := by simpa using hxe
  exact h (hxc ▸ List.mem_map_of_mem _ hx)

theorem upd_same {K : Type} [DecidableEq K] (f : K → Nat) (k : K) (v : Nat) :
    upd f k v k = v := by
  simp [upd]

theorem upd_other {K : Type} [DecidableEq K] (f : K → Nat) (k x : K) (v : Nat)
    (h : x ≠ k) : upd f k v x = f x := by
  simp [upd, h]

theorem updateProcessInfo_connections (procs : Nat → Option ProcInfo) (now : SystemTime)
    (m : ConnectionMonitor) (pid : Nat) :
    (updateProcessInfo procs now m pid).connections = m.connections := by
  unfold updateProcessInfo
  cases procs pid <;> rfl

theorem updateProcessInfo_historical (procs : Nat → Option ProcInfo) (now : SystemTime)
    (m : ConnectionMonitor) (pid : Nat) :
    (updateProcessInfo procs now m pid).historical_connections = m.historical_connections := by
  unfold updateProcessInfo
  cases procs pid <;> rfl

theorem updateProcessInfo_counters (procs : Nat → Option ProcInfo) (now : SystemTime)
    (m : ConnectionMonitor) (pid : Nat) :
    (updateProcessInfo procs now m pid).metrics.total_connections_by_pid
        = m.metrics.total_connections_by_pid ∧
    (updateProcessInfo procs now m pid).metrics.current_concurrent_by_pid
        = m.metrics.current_concurrent_by_pid ∧
    (updateProcessInfo procs now m pid).metrics.max_concurrent_by_pid
        = m.metrics.max_concurrent_by_pid ∧
    (updateProcessInfo procs now m pid).metrics.total_connections_by_host
        = m.metrics.total_connections_by_host ∧
    (updateProcessInfo procs now m pid).metrics.current_concurrent_by_host
        = m.metrics.current_concurrent_by_host ∧
    (updateProcessInfo procs now m pid).metrics.max_concurrent_by_host
        = m.metrics.max_concurrent_by_host ∧
    (updateProcessInfo procs now m pid).metrics.total_connections_by_process_host
        = m.metrics.total_connections_by_process_host ∧
    (updateProcessInfo procs now m pid).metrics.current_concurrent_by_process_host
        = m.metrics.current_concurrent_by_process_host ∧
    (updateProcessInfo procs now m pid).metrics.max_concurrent_by_process_host
        = m.metrics.max_concurrent_by_process_host := by
  unfold updateProcessInfo
  cases procs pid <;> exact ⟨rfl, rfl, rfl, rfl, rfl, rfl, rfl, rfl, rfl⟩

theorem bumpWithMax_tot {K : Type} [DecidableEq K] (tot cur mx : K → Nat) (k : K) :
    (bumpWithMax tot cur mx k).1 = upd tot k (tot k + 1) := rfl

theorem bumpWithMax_cur {K : Type} [DecidableEq K] (tot cur mx : K → Nat) (k : K) :
    (bumpWithMax tot cur mx k).2.1 = upd cur k (cur k + 1) := rfl

theorem bumpWithMax_max_mono {K : Type} [DecidableEq K] (tot cur mx : K → Nat) (k x : K) :
    mx x ≤ (bumpWithMax tot cur mx k).2.2 x := by
  unfold bumpWithMax
  dsimp only
  rw [upd_same]
  by_cases hgt : cur k + 1 > mx k
  · rw [if_pos hgt]
    by_cases hx : x = k
    · subst hx
      rw [upd_same]
      omega
    · rw [upd_other _ _ _ _ hx]
  · rw [if_neg hgt]

theorem bumpWithMax_cur_le_max {K : Type} [DecidableEq K] (tot cur mx : K → Nat) (k : K)
    (h : ∀ x, cur x ≤ mx x) (x : K) :
    (bumpWithMax tot cur mx k).2.1 x ≤ (bumpWithMax tot cur mx k).2.2 x := by
  unfold bumpWithMax
  dsimp only
  rw [upd_same]
  by_cases hx : x = k
  · subst hx
    rw [upd_same]
    by_cases hgt : cur x + 1 > mx x
    · rw [if_pos hgt, upd_same]
    · rw [if_neg hgt]
      omega
  · rw [upd_other cur _ _ _ hx]
    by_cases hgt : cur k + 1 > mx k
    · rw [if_pos hgt, upd_other _ _ _ _ hx]
      exact h x
    · rw [if_neg hgt]
      exact h x

theorem createConn_connections (m : ConnectionMonitor) (pid : Nat) (e : SocketEntry)
    (now : SystemTime) :
    (createConn m pid e now).connections = insertConn m.connections
      (Connection.new e.fresh_id pid e.local_port e.remote_port
        e.remote_addr e.hostname e.state now) := rfl

theorem createConn_historical (m : ConnectionMonitor) (pid : Nat) (e : SocketEntry)
    (now : SystemTime) :
    (createConn m pid e now).historical_connections = m.historical_connections := rfl

theorem createConn_tot_pid (m : ConnectionMonitor) (pid : Nat) (e : SocketEntry)
    (now : SystemTime) :
    (createConn m pid e now).metrics.total_connections_by_pid
      = upd m.metrics.total_connections_by_pid pid
          (m.metrics.total_connections_by_pid pid + 1) := rfl

theorem createConn_cur_pid (m : ConnectionMonitor) (pid : Nat) (e : SocketEntry)
    (now : SystemTime) :
    (createConn m pid e now).metrics.current_concurrent_by_pid
      = upd m.metrics.current_concurrent_by_pid pid
          (m.metrics.current_concurrent_by_pid pid + 1) := rfl

theorem createConn_tot_host (m : ConnectionMonitor) (pid : Nat) (e : SocketEntry)
    (now : SystemTime) :
    (createConn m pid e now).metrics.total_connections_by_host
      = (match e.hostname with
         | some h => upd m.metrics.total_connections_by_host (hostKey h e.remote_port)
             (m.metrics.total_connections_by_host (hostKey h e.remote_port) + 1)
         | none => m.metrics.total_connections_by_host) := by
  unfold createConn bumpWithMax
  cases e.hostname <;> rfl

theorem createConn_cur_host (m : ConnectionMonitor) (pid : Nat) (e : SocketEntry)
    (now : SystemTime) :
    (createConn m pid e now).metrics.current_concurrent_by_host
      = (match e.hostname with
         | some h => upd m.metrics.current_concurrent_by_host (hostKey h e.remote_port)
             (m.metrics.current_concurrent_by_host (hostKey h e.remote_port) + 1)
         | none => m.metrics.current_concurrent_by_host) := by
  unfold createConn bumpWithMax
  cases e.hostname <;> rfl

theorem createConn_tot_ph (m : ConnectionMonitor) (pid : Nat) (e : SocketEntry)
    (now : SystemTime) :
    (createConn m pid e now).metrics.total_connections_by_process_host
      = (match e.hostname with
         | some h => upd m.metrics.total_connections_by_process_host (pid, h, e.remote_port)
             (m.metrics.total_connections_by_process_host (pid, h, e.remote_port) + 1)
         | none => m.metrics.total_connections_by_process_host) := by
  unfold createConn bumpWithMax
  cases e.hostname <;> rfl

theorem createConn_cur_ph (m : ConnectionMonitor) (pid : Nat) (e : SocketEntry)
    (now : SystemTime) :
    (createConn m pid e now).metrics.current_concurrent_by_process_host
      = (match e.hostname with
         | some h => upd m.metrics.current_concurrent_by_process_host (pid, h, e.remote_port)
             (m.metrics.current_concurrent_by_process_host (pid, h, e.remote_port) + 1)
         | none => m.metrics.current_concurrent_by_process_host) := by
  unfold createConn bumpWithMax
  cases e.hostname <;> rfl

theorem closeApply_connections (m : ConnectionMonitor) (c : Connection) (now : SystemTime) :
    (closeApply m c now).connections
      = updAt m.connections c.id (fun _ => { c with closed := true, last_seen := now }) := rfl

theorem closeApply_historical (m : ConnectionMonitor) (c : Connection) (now : SystemTime) :
    (closeApply m c now).historical_connections
      = m.historical_connections ++ [{ c with closed := true, last_seen := now }] := rfl

theorem closeApply_cur_pid (m : ConnectionMonitor) (c : Connection) (now : SystemTime) :
    (closeApply m c now).metrics.current_concurrent_by_pid
      = upd m.metrics.current_concurrent_by_pid c.pid
          (m.metrics.current_concurrent_by_pid c.pid - 1) := rfl

theorem closeApply_cur_host (m : ConnectionMonitor) (c : Connection) (now : SystemTime) :
    (closeApply m c now).metrics.current_concurrent_by_host
      = (match c.remote_hostname with
         | some h => upd m.metrics.current_concurrent_by_host (hostKey h c.remote_port)
             (m.metrics.current_concurrent_by_host (hostKey h c.remote_port) - 1)
         | none => m.metrics.current_concurrent_by_host) := by
  unfold closeApply
  cases c.remote_hostname <;> rfl

theorem closeApply_cur_ph (m : ConnectionMonitor) (c : Connection) (now : SystemTime) :
    (closeApply m c now).metrics.current_concurrent_by_process_host
      = (match c.remote_hostname with
         | some h => upd m.metrics.current_concurrent_by_process_host
             (c.pid, h, c.remote_port)
             (m.metrics.current_concurrent_by_process_host (c.pid, h, c.remote_port) - 1)
         | none => m.metrics.current_concurrent_by_process_host) := by
  unfold closeApply
  cases c.remote_hostname <;> rfl

theorem closeApply_max (m : ConnectionMonitor) (c : Connection) (now : SystemTime) :
    (closeApply m c now).metrics.max_concurrent_by_pid = m.metrics.max_concurrent_by_pid ∧
    (closeApply m c now).metrics.max_concurrent_by_host = m.metrics.max_concurrent_by_host ∧
    (closeApply m c now).metrics.max_concurrent_by_process_host
      = m.metrics.max_concurrent_by_process_host ∧
    (closeApply m c now).metrics.total_connections_by_pid
      = m.metrics.total_connections_by_pid ∧
    (closeApply m c now).metrics.total_connections_by_host
      = m.metrics.total_connections_by_host ∧
    (closeApply m c now).metrics.total_connections_by_process_host
      = m.metrics.total_connections_by_process_host :=
  ⟨rfl, rfl, rfl, rfl, rfl, rfl⟩

theorem createConn_cur_host_none (m : ConnectionMonitor) (pid : Nat) (e : SocketEntry)
    (now : SystemTime) (hh : e.hostname = none) :
    (createConn m pid e now).metrics.current_concurrent_by_host
      = m.metrics.current_concurrent_by_host := by
  rw [createConn_cur_host, hh]

theorem createConn_cur_host_some (m : ConnectionMonitor) (pid : Nat) (e : SocketEntry)
    (now : SystemTime) (h : String) (hh : e.hostname = some h) :
    (createConn m pid e now).metrics.current_concurrent_by_host
      = upd m.metrics.current_concurrent_by_host (hostKey h e.remote_port)
          (m.metrics.current_concurrent_by_host (hostKey h e.remote_port) + 1) := by
  rw [createConn_cur_host, hh]

theorem createConn_cur_ph_none (m : ConnectionMonitor) (pid : Nat) (e : SocketEntry)
    (now : SystemTime) (hh : e.hostname = none) :
    (createConn m pid e now).metrics.current_concurrent_by_process_host
      = m.metrics.current_concurrent_by_process_host := by
  rw [createConn_cur_ph, hh]

theorem createConn_cur_ph_some (m : ConnectionMonitor) (pid : Nat) (e : SocketEntry)
    (now : SystemTime) (h : String) (hh : e.hostname = some h) :
    (createConn m pid e now).metrics.current_concurrent_by_process_host
      = upd m.metrics.current_concurrent_by_process_host (pid, h, e.remote_port)
          (m.metrics.current_concurrent_by_process_host (pid, h, e.remote_port) + 1) := by
  rw [createConn_cur_ph, hh]

theorem closeApply_cur_host_none (m : ConnectionMonitor) (c : Connection)
    (now : SystemTime) (hh : c.remote_hostname = none) :
    (closeApply m c now).metrics.current_concurrent_by_host
      = m.metrics.current_concurrent_by_host := by
  rw [closeApply_cur_host, hh]

theorem closeApply_cur_host_some (m : ConnectionMonitor) (c : Connection)
    (now : SystemTime) (h : String) (hh : c.remote_hostname = some h) :
    (closeApply m c now).metrics.current_concurrent_by_host
      = upd m.metrics.current_concurrent_by_host (hostKey h c.remote_port)
          (m.metrics.current_concurrent_by_host (hostKey h c.remote_port) - 1) := by
  rw [closeApply_cur_host, hh]

theorem closeApply_cur_ph_none (m : ConnectionMonitor) (c : Connection)
    (now : SystemTime) (hh : c.remote_hostname = none) :
    (closeApply m c now).metrics.current_concurrent_by_process_host
      = m.metrics.current_concurrent_by_process_host := by
  rw [closeApply_cur_ph, hh]

theorem closeApply_cur_ph_some (m : ConnectionMonitor) (c : Connection)
    (now : SystemTime) (h : String) (hh : c.remote_hostname = some h) :
    (closeApply m c now).metrics.current_concurrent_by_process_host
      = upd m.metrics.current_concurrent_by_process_host (c.pid, h, c.remote_port)
          (m.metrics.current_concurrent_by_process_host (c.pid, h, c.remote_port) - 1) := by
  rw [closeApply_cur_ph, hh]

theorem inv_updateState (m : ConnectionMonitor) (cid : Nat) (st : TcpState)
    (now : SystemTime) (hinv : Inv m) :
    Inv { m with connections := updateStateAt m.connections cid st now } := by
  refine ⟨?_, ?_, ?_, ?_, ?_⟩
  · show (idsOf (updateStateAt m.connections cid st now)).Nodup
    unfold updateStateAt
    rw [idsOf_updAt m.connections cid
      (fun x => { x with state := st, last_seen := now }) (fun x _ => rfl)]
    exact hinv.nodup
  · intro p
    show m.metrics.current_concurrent_by_pid p
      = pidOpenCount (updateStateAt m.connections cid st now) p
    unfold updateStateAt pidOpenCount
    rw [countP_updAt_congr m.connections cid
      (fun x => { x with state := st, last_seen := now })
      (fun c => !c.closed && decide (c.pid = p)) (fun x => rfl)]
    exact hinv.pid_eq p
  · intro k
    show m.metrics.current_concurrent_by_host k
      = hostOpenCount (updateStateAt m.connections cid st now) k
    unfold updateStateAt hostOpenCount
    rw [countP_updAt_congr m.connections cid
      (fun x => { x with state := st, last_seen := now })
      (fun c => !c.closed && decide (hostKeyOf c = some k)) (fun x => rfl)]
    exact hinv.host_eq k
  · intro k
    show m.metrics.current_concurrent_by_process_host k
      = phOpenCount (updateStateAt m.connections cid st now) k
    unfold updateStateAt phOpenCount
    rw [countP_updAt_congr m.connections cid
      (fun x => { x with state := st, last_seen := now })
      (fun c => !c.closed && decide (phKeyOf c = some k)) (fun x => rfl)]
    exact hinv.ph_eq k
  · exact hinv.hist_closed

theorem inv_updateProcessInfo (procs : Nat → Option ProcInfo) (now : SystemTime)
    (m : ConnectionMonitor) (pid : Nat) (hinv : Inv m) :
    Inv (updateProcessInfo procs now m pid) := by
  obtain ⟨_, h2, _, _, h5, _, _, h8, _⟩ := updateProcessInfo_counters procs now m pid
  refine ⟨?_, ?_, ?_, ?_, ?_⟩
  · rw [updateProcessInfo_connections]
    exact hinv.nodup
  · intro p
    rw [h2, updateProcessInfo_connections]
    exact hinv.pid_eq p
  · intro k
    rw [h5, updateProcessInfo_connections]
    exact hinv.host_eq k
  · intro k
    rw [h8, updateProcessInfo_connections]
    exact hinv.ph_eq k
  · rw [updateProcessInfo_historical]
    exact hinv.hist_closed

theorem count_close_pred_true (l : List Connection) (c : Connection) (now : SystemTime)
    (pred : Connection → Bool) (hnd : (idsOf l).Nodup) (hmem : c ∈ l)
    (hclosed_pred : pred { c with closed := true, last_seen := now } = false)
    (hpred : pred c = true) :
    (updAt l c.id (fun _ => { c with closed := true, last_seen := now })).countP pred + 1
      = l.countP pred := by
  have hc := countP_updAt l c.id (fun _ => { c with closed := true, last_seen := now })
    pred c hnd (find?_id_of_nodup l c hnd hmem)
  simp [hclosed_pred, hpred] at hc
  omega

theorem count_close_pred_false (l : List Connection) (c : Connection) (now : SystemTime)
    (pred : Connection → Bool) (hnd : (idsOf l).Nodup) (hmem : c ∈ l)
    (hclosed_pred : pred { c with closed := true, last_seen := now } = false)
    (hpred : pred c = false) :
    (updAt l c.id (fun _ => { c with closed := true, last_seen := now })).countP pred
      = l.countP pred := by
  have hc := countP_updAt l c.id (fun _ => { c with closed := true, last_seen := now })
    pred c hnd (find?_id_of_nodup l c hnd hmem)
  simp [hclosed_pred, hpred] at hc
  omega

theorem inv_createConn (m : ConnectionMonitor) (pid : Nat) (e : SocketEntry)
    (now : SystemTime) (hinv : Inv m) (hfresh : e.fresh_id ∉ idsOf m.connections) :
    Inv (createConn m pid e now) := by
  have hins : (createConn m pid e now).connections
      = m.connections ++ [Connection.new e.fresh_id pid e.local_port e.remote_port
          e.remote_addr e.hostname e.state now] := by
    rw [createConn_connections]
    exact insertConn_of_fresh _ _ hfresh
  refine ⟨?_, ?_, ?_, ?_, ?_⟩
  · rw [hins]
    unfold idsOf
    rw [List.map_append, List.nodup_append]
    refine ⟨hinv.nodup, List.nodup_singleton _, ?_⟩
    simp only [List.map_cons, List.map_nil, List.disjoint_singleton]
    exact hfresh
  · intro p
    rw [createConn_cur_pid, hins]
    unfold pidOpenCount
    rw [List.countP_append]
    by_cases hp : p = pid
    · subst hp
      rw [upd_same, hinv.pid_eq p]
      unfold pidOpenCount
      simp [Connection.new, List.countP_cons]
    · rw [upd_other _ _ _ _ hp, hinv.pid_eq p]
      have hp' : ¬(pid = p) := fun h => hp h.symm
      unfold pidOpenCount
      simp [Connection.new, List.countP_cons, hp']
  · intro k
    rw [hins]
    unfold hostOpenCount
    rw [List.countP_append]
    cases hh : e.hostname with
    | none =>
      rw [createConn_cur_host_none m pid e now hh, hinv.host_eq k]
      unfold hostOpenCount
      simp [Connection.new, hostKeyOf, List.countP_cons, hh]
    | some h =>
      rw [createConn_cur_host_some m pid e now h hh]
      by_cases hk : k = hostKey h e.remote_port
      · subst hk
        rw [upd_same, hinv.host_eq]
        unfold hostOpenCount
        simp [Connection.new, hostKeyOf, List.countP_cons, hh]
      · rw [upd_other _ _ _ _ hk, hinv.host_eq]
        have hk' : ¬(hostKey h e.remote_port = k) := fun hx => hk hx.symm
        unfold hostOpenCount
        simp [Connection.new, hostKeyOf, List.countP_cons, hh, hk']
  · intro k
    rw [hins]
    unfold phOpenCount
    rw [List.countP_append]
    cases hh : e.hostname with
    | none =>
      rw [createConn_cur_ph_none m pid e now hh, hinv.ph_eq k]
      unfold phOpenCount
      simp [Connection.new, phKeyOf, List.countP_cons, hh]
    | some h =>
      rw [createConn_cur_ph_some m pid e now h hh]
      by_cases hk : k = (pid, h, e.remote_port)
      · subst hk
        rw [upd_same, hinv.ph_eq]
        unfold phOpenCount
        simp [Connection.new, phKeyOf, List.countP_cons, hh]
      · rw [upd_other _ _ _ _ hk, hinv.ph_eq]
        have hk' : ¬((pid, h, e.remote_port) = k) := fun hx => hk hx.symm
        unfold phOpenCount
        simp [Connection.new, phKeyOf, List.countP_cons, hh, hk']
  · rw [createConn_historical]
    exact hinv.hist_closed

theorem inv_closeApply (m : ConnectionMonitor) (c : Connection) (now : SystemTime)
    (hinv : Inv m) (hmem : c ∈ m.connections) (hopen : c.closed = false) :
    Inv (closeApply m c now) := by
  refine ⟨?_, ?_, ?_, ?_, ?_⟩
  · rw [closeApply_connections]
    rw [idsOf_updAt m.connections c.id
      (fun _ => { c with closed := true, last_seen := now }) (fun x hx => hx.symm)]
    exact hinv.nodup
  · intro p
    rw [closeApply_cur_pid, closeApply_connections]
    unfold pidOpenCount
    by_cases hp : p = c.pid
    · subst hp
      rw [upd_same, hinv.pid_eq]
      unfold pidOpenCount
      have hv := count_close_pred_true m.connections c now
        (fun x => !x.closed && decide (x.pid = c.pid)) hinv.nodup hmem
        (by simp) (by simp [hopen])
      omega
    · rw [upd_other _ _ _ _ hp, hinv.pid_eq]
      unfold pidOpenCount
      have hp' : ¬(c.pid = p) := fun h => hp h.symm
      have hv := count_close_pred_false m.connections c now
        (fun x => !x.closed && decide (x.pid = p)) hinv.nodup hmem
        (by simp) (by simp [hp'])
      omega
  · intro k
    cases hh : c.remote_hostname with
    | none =>
      rw [closeApply_cur_host_none m c now hh, hinv.host_eq, closeApply_connections]
      unfold hostOpenCount
      have hv := count_close_pred_false m.connections c now
        (fun x => !x.closed && decide (hostKeyOf x = some k)) hinv.nodup hmem
        (by simp) (by simp [hostKeyOf, hh])
      omega
    | some h =>
      rw [closeApply_cur_host_some m c now h hh, closeApply_connections]
      unfold hostOpenCount
      by_cases hk : k = hostKey h c.remote_port
      · subst hk
        rw [upd_same, hinv.host_eq]
        unfold hostOpenCount
        have hv := count_close_pred_true m.connections c now
          (fun x => !x.closed && decide (hostKeyOf x = some (hostKey h c.remote_port)))
          hinv.nodup hmem (by simp) (by simp [hopen, hostKeyOf, hh])
        omega
      · rw [upd_other _ _ _ _ hk, hinv.host_eq]
        unfold hostOpenCount
        have hk' : ¬(hostKey h c.remote_port = k) := fun hx => hk hx.symm
        have hv := count_close_pred_false m.connections c now
          (fun x => !x.closed && decide (hostKeyOf x = some k)) hinv.nodup hmem
          (by simp) (by simp [hostKeyOf, hh, hk'])
        omega
  · intro k
    cases hh : c.remote_hostname with
    | none =>
      rw [closeApply_cur_ph_none m c now hh, hinv.ph_eq, closeApply_connections]
      unfold phOpenCount
      have hv := count_close_pred_false m.connections c now
        (fun x => !x.closed && decide (phKeyOf x = some k)) hinv.nodup hmem
        (by simp) (by simp [phKeyOf, hh])
      omega
    | some h =>
      rw [closeApply_cur_ph_some m c now h hh, closeApply_connections]
      unfold phOpenCount
      by_cases hk : k = (c.pid, h, c.remote_port)
      · subst hk
        rw [upd_same, hinv.ph_eq]
        unfold phOpenCount
        have hv := count_close_pred_true m.connections c now
          (fun x => !x.closed && decide (phKeyOf x = some (c.pid, h, c.remote_port)))
          hinv.nodup hmem (by simp) (by simp [hopen, phKeyOf, hh])
        omega
      · rw [upd_other _ _ _ _ hk, hinv.ph_eq]
        unfold phOpenCount
        have hk' : ¬((c.pid, h, c.remote_port) = k) := fun hx => hk hx.symm
        have hv := count_close_pred_false m.connections c now
          (fun x => !x.closed && decide (phKeyOf x = some k)) hinv.nodup hmem
          (by simp) (by simp [phKeyOf, hh, hk'])
        omega
  · intro x hx
    rw [closeApply_historical] at hx
    rcases List.mem_append.mp hx with h1 | h2
    · exact hinv.hist_closed x h1
    · obtain rfl : x = { c with closed := true, last_seen := now } := by simpa using h2
      rfl

theorem mem_updAt_of_ne (l : List Connection) (cid : Nat) (f : Connection → Connection)
    (c : Connection) (hmem : c ∈ l) (hne : c.id ≠ cid) : c ∈ updAt l cid f := by
  unfold updAt
  have hmm := List.mem_map_of_mem (fun x => if decide (x.id = cid) then f x else x) hmem
  simpa [hne] using hmm

theorem processEntry_inv (procs : Nat → Option ProcInfo) (now : SystemTime)
    (st : ConnectionMonitor × List Nat) (e : SocketEntry)
    (hinv : Inv st.1) (hfresh : e.fresh_id ∉ idsOf st.1.connections) :
    Inv (processEntry procs now st e).1 ∧
    (idsOf (processEntry procs now st e).1.connections = idsOf st.1.connections ∨
     idsOf (processEntry procs now st e).1.connections
       = idsOf st.1.connections ++ [e.fresh_id]) := by
  obtain ⟨m, seen⟩ := st
  unfold processEntry
  dsimp only
  cases hpids : e.pids with
  | nil => exact ⟨hinv, Or.inl rfl⟩
  | cons pid rest =>
    dsimp only
    cases hfind : findConn m.connections pid e with
    | some c =>
      dsimp only
      refine ⟨inv_updateProcessInfo _ _ _ _ (inv_updateState m c.id e.state now hinv),
        Or.inl ?_⟩
      rw [updateProcessInfo_connections]
      show idsOf (updateStateAt m.connections c.id e.state now) = idsOf m.connections
      unfold updateStateAt
      exact idsOf_updAt m.connections c.id
        (fun x => { x with state := e.state, last_seen := now }) (fun x _ => rfl)
    | none =>
      dsimp only
      refine ⟨inv_updateProcessInfo _ _ _ _ (inv_createConn m pid e now hinv hfresh),
        Or.inr ?_⟩
      rw [updateProcessInfo_connections, createConn_connections,
        insertConn_of_fresh _ _ hfresh]
      unfold idsOf
      rw [List.map_append]
      rfl

theorem foldEntries_inv (procs : Nat → Option ProcInfo) (now : SystemTime)
    (es : List SocketEntry) (st : ConnectionMonitor × List Nat)
    (hinv : Inv st.1)
    (hnd : (es.map (fun e => e.fresh_id)).Nodup)
    (hdis : ∀ i ∈ es.map (fun e => e.fresh_id), i ∉ idsOf st.1.connections) :
    Inv (es.foldl (processEntry procs now) st).1 ∧
    ∀ i, i ∈ idsOf (es.foldl (processEntry procs now) st).1.connections →
      i ∈ idsOf st.1.connections ∨ i ∈ es.map (fun e => e.fresh_id) := by
  induction es generalizing st with
  | nil => exact ⟨hinv, fun i hi => Or.inl hi⟩
  | cons e es ih =>
    rw [List.map_cons, List.nodup_cons] at hnd
    have hfresh : e.fresh_id ∉ idsOf st.1.connections :=
      hdis e.fresh_id (by rw [List.map_cons]; exact List.mem_cons_self _ _)
    obtain ⟨hinv1, hids1⟩ := processEntry_inv procs now st e hinv hfresh
    rw [List.foldl_cons]
    have hdis1 : ∀ i ∈ es.map (fun e => e.fresh_id),
        i ∉ idsOf (processEntry procs now st e).1.connections := by
      intro i hi hin
      rcases hids1 with hsame | happ
      · exact hdis i (by rw [List.map_cons]; exact List.mem_cons_of_mem _ hi) (hsame ▸ hin)
      · rw [happ, List.mem_append] at hin
        rcases hin with h1 | h2
        · exact hdis i (by rw [List.map_cons]; exact List.mem_cons_of_mem _ hi) h1
        · have hie : i = e.fresh_id := by simpa using h2
          exact hnd.1 (hie ▸ hi)
    obtain ⟨hinv2, hids2⟩ := ih (processEntry procs now st e) hinv1 hnd.2 hdis1
    refine ⟨hinv2, ?_⟩
    intro i hi
    rcases hids2 i hi with h1 | h2
    · rcases hids1 with hsame | happ
      · exact Or.inl (hsame ▸ h1)
      · rw [happ, List.mem_append] at h1
        rcases h1 with ha | hb
        · exact Or.inl ha
        · have hie : i = e.fresh_id := by simpa using hb
          exact Or.inr (by rw [List.map_cons, hie]; exact List.mem_cons_self _ _)
    · exact Or.inr (by rw [List.map_cons]; exact List.mem_cons_of_mem _ h2)

theorem closeFold_state (now : SystemTime) (l : List Nat) (m : ConnectionMonitor)
    (hinv : Inv m) (hnd : l.Nodup)
    (hmem : ∀ cid ∈ l, ∃ c, c ∈ m.connections ∧ c.id = cid ∧ c.closed = false) :
    Inv (l.foldl (closeOne now) m) ∧
    ∀ cid, cid ∉ l → (∃ c, c ∈ m.connections ∧ c.id = cid ∧ c.closed = false) →
      ∃ c, c ∈ (l.foldl (closeOne now) m).connections ∧ c.id = cid ∧ c.closed = false := by
  induction l generalizing m with
  | nil => exact ⟨hinv, fun cid _ hex => hex⟩
  | cons cid0 l ih =>
    rw [List.foldl_cons]
    obtain ⟨c0, hc0_mem, hc0_id, hc0_open⟩ := hmem cid0 (List.mem_cons_self _ _)
    rw [List.nodup_cons] at hnd
    have hfind : m.connections.find? (fun x => decide (x.id = cid0)) = some c0 := by
      rw [← hc0_id]
      exact find?_id_of_nodup m.connections c0 hinv.nodup hc0_mem
    have hclose : closeOne now m cid0 = closeApply m c0 now := by
      unfold closeOne
      rw [hfind]
    rw [hclose]
    have hinv' := inv_closeApply m c0 now hinv hc0_mem hc0_open
    have hkeep : ∀ cid, cid ≠ cid0 →
        (∃ c, c ∈ m.connections ∧ c.id = cid ∧ c.closed = false) →
        ∃ c, c ∈ (closeApply m c0 now).connections ∧ c.id = cid ∧ c.closed = false := by
      intro cid hne hex
      obtain ⟨c, hc_mem, hc_id, hc_open⟩ := hex
      refine ⟨c, ?_, hc_id, hc_open⟩
      rw [closeApply_connections]
      apply mem_updAt_of_ne _ _ _ _ hc_mem
      rw [hc_id, hc0_id]
      exact hne
    have hmem' : ∀ cid ∈ l, ∃ c, c ∈ (closeApply m c0 now).connections ∧
        c.id = cid ∧ c.closed = false := by
      intro cid hcid
      have hne : cid ≠ cid0 := fun h => hnd.1 (h ▸ hcid)
      exact hkeep cid hne (hmem cid (List.mem_cons_of_mem _ hcid))
    obtain ⟨hinvf, hkeepf⟩ := ih (closeApply m c0 now) hinv' hnd.2 hmem'
    refine ⟨hinvf, ?_⟩
    intro cid hnotin hex
    have hne : cid ≠ cid0 := fun h => hnotin (h ▸ List.mem_cons_self _ _)
    have hnotin' : cid ∉ l := fun h => hnotin (List.mem_cons_of_mem _ h)
    exact hkeepf cid hnotin' (hkeep cid hne hex)

theorem inv_scanState (m : ConnectionMonitor) (s : Snapshot)
    (hinv : Inv m) (hfresh : FreshSnap m s) : Inv (scanState m s).1 := by
  obtain ⟨hnd, hdis⟩ := hfresh
  have hsub : ((entriesOf s).map (fun e => e.fresh_id)).Sublist
      (s.sockets.map (fun e => e.fresh_id)) := (List.filter_sublist _).map _
  exact (foldEntries_inv s.procs s.now (entriesOf s) (m, []) hinv
    (List.Nodup.sublist hsub hnd) (fun i hi => hdis i (hsub.subset hi))).1

theorem toCloseList_nodup (m : ConnectionMonitor) (seen : List Nat)
    (hnd : (idsOf m.connections).Nodup) : (toCloseList m seen).Nodup := by
  unfold toCloseList
  exact List.Nodup.sublist ((List.filter_sublist _).map _) hnd

theorem toCloseList_mem (m : ConnectionMonitor) (seen : List Nat) (cid : Nat)
    (hcid : cid ∈ toCloseList m seen) :
    ∃ c, c ∈ m.connections ∧ c.id = cid ∧ c.closed = false := by
  unfold toCloseList at hcid
  rcases List.mem_map.mp hcid with ⟨c, hcf, rfl⟩
  have hf := List.mem_filter.mp hcf
  refine ⟨c, hf.1, rfl, ?_⟩
  have hb := hf.2
  rw [Bool.and_eq_true] at hb
  simpa using hb.2

theorem refreshOk_inv (m : ConnectionMonitor) (s : Snapshot)
    (hinv : Inv m) (hfresh : FreshSnap m s) : Inv (refreshOk m s) := by
  have hinv1 : Inv (scanState m s).1 := inv_scanState m s hinv hfresh
  have hinv2 : Inv ((toCloseList (scanState m s).1 (scanState m s).2).foldl
      (closeOne s.now) (scanState m s).1) :=
    (closeFold_state s.now _ _ hinv1
      (toCloseList_nodup _ _ hinv1.nodup)
      (fun cid hcid => toCloseList_mem _ _ cid hcid)).1
  exact ⟨hinv2.nodup, hinv2.pid_eq, hinv2.host_eq, hinv2.ph_eq, hinv2.hist_closed⟩

theorem inv_initState (t0 : SystemTime) : Inv (ConnectionMonitor.initState t0) := by
  refine ⟨?_, fun p => rfl, fun k => rfl, fun k => rfl, ?_⟩
  · simp [ConnectionMonitor.initState, idsOf]
  · intro c hc
    simp [ConnectionMonitor.initState] at hc

theorem inv_resetState (m : ConnectionMonitor) (now : SystemTime) :
    Inv (m.resetState now) := by
  refine ⟨?_, fun p => rfl, fun k => rfl, fun k => rfl, ?_⟩
  · simp [ConnectionMonitor.resetState, idsOf]
  · intro c hc
    simp [ConnectionMonitor.resetState] at hc

theorem inv_of_reachableFresh (m : ConnectionMonitor) (h : ReachableFresh m) : Inv m := by
  induction h with
  | init t0 => exact inv_initState t0
  | step m s _ hf ih => exact refreshOk_inv m s ih hf
  | reset m now _ _ => exact inv_resetState m now

/-- Claim C3: after every successful refresh (and across resets), the
current-concurrent counter of every pid equals the number of non-closed
connections with that pid held by the registry (live map plus historical
list; historical entries are all closed).  Reachability assumes the external
random id generator never repeats an id, the assumption the code's HashMap
insertions rely on. -/
theorem current_concurrent_equals_open_count (m : ConnectionMonitor)
    (hreach : ReachableFresh m) (p : Nat) :
    m.metrics.current_concurrent_by_pid p
      = (allConnections m).countP (fun c => !c.closed && decide (c.pid = p)) := by
  have hinv := inv_of_reachableFresh m hreach
  unfold allConnections
  rw [List.countP_append]
  have hz : m.historical_connections.countP
      (fun c => !c.closed && decide (c.pid = p)) = 0 := by
    rw [List.countP_eq_zero]
    intro c hc
    simp [hinv.hist_closed c hc]
  rw [hz, hinv.pid_eq p]
  unfold pidOpenCount
  omega

/-- Witness for C3 at the concrete one-tick state. -/
theorem current_concurrent_equals_open_count_witness :
    exM1.metrics.current_concurrent_by_pid 10
      = (allConnections exM1).countP (fun c => !c.closed && decide (c.pid = 10)) :=
  current_concurrent_equals_open_count exM1
    (ReachableFresh.step (ConnectionMonitor.initState 0) exSnap1
      (ReachableFresh.init 0) (by decide)) 10

/-- Claim C10: in every reachable registry state, at the moment the to_close
loop of refresh decrements the current-concurrent counters for a connection
being transitioned to closed — after any prefix of the loop has already run —
the connection is still present and non-closed, and the decremented entries
(the pid key, and the host and process-host keys when a hostname is resolved)
are all at least 1, so the or_insert(1)-guarded subtraction can never
underflow.  The or_insert default itself is part of the closeApply
definition, which models entry(k).or_insert(1) -= 1. -/
theorem close_decrement_never_underflows (m : ConnectionMonitor) (s : Snapshot)
    (hreach : ReachableFresh m) (hfresh : FreshSnap m s)
    (l₁ : List Nat) (cid : Nat) (l₂ : List Nat)
    (hsplit : toCloseList (scanState m s).1 (scanState m s).2 = l₁ ++ cid :: l₂) :
    ∃ c, (l₁.foldl (closeOne s.now) (scanState m s).1).connections.find?
        (fun x => decide (x.id = cid)) = some c ∧
      c.closed = false ∧
      1 ≤ (l₁.foldl (closeOne s.now)
          (scanState m s).1).metrics.current_concurrent_by_pid c.pid ∧
      (∀ h, c.remote_hostname = some h →
        1 ≤ (l₁.foldl (closeOne s.now)
            (scanState m s).1).metrics.current_concurrent_by_host
            (hostKey h c.remote_port) ∧
        1 ≤ (l₁.foldl (closeOne s.now)
            (scanState m s).1).metrics.current_concurrent_by_process_host
            (c.pid, h, c.remote_port)) := by
  have hinv1 : Inv (scanState m s).1 :=
    inv_scanState m s (inv_of_reachableFresh m hreach) hfresh
  have hndall : (toCloseList (scanState m s).1 (scanState m s).2).Nodup :=
    toCloseList_nodup _ _ hinv1.nodup
  rw [hsplit, List.nodup_append] at hndall
  obtain ⟨hnd1, _, hdisj⟩ := hndall
  have hcid_notin : cid ∉ l₁ := fun hin => hdisj hin (List.mem_cons_self _ _)
  have hmem1 : ∀ x ∈ l₁, ∃ c, c ∈ (scanState m s).1.connections ∧
      c.id = x ∧ c.closed = false := by
    intro x hx
    apply toCloseList_mem
    rw [hsplit]
    exact List.mem_append.mpr (Or.inl hx)
  have hcidmem : ∃ c, c ∈ (scanState m s).1.connections ∧
      c.id = cid ∧ c.closed = false := by
    apply toCloseList_mem
    rw [hsplit]
    exact List.mem_append.mpr (Or.inr (List.mem_cons_self _ _))
  obtain ⟨hinvf, hkeep⟩ := closeFold_state s.now l₁ (scanState m s).1 hinv1 hnd1 hmem1
  obtain ⟨c, hc_mem, hc_id, hc_open⟩ := hkeep cid hcid_notin hcidmem
  subst hc_id
  refine ⟨c, find?_id_of_nodup _ c hinvf.nodup hc_mem, hc_open, ?_, ?_⟩
  · rw [hinvf.pid_eq]
    unfold pidOpenCount
    have hpred : (!c.closed && decide (c.pid = c.pid)) = true := by simp [hc_open]
    have hpos : 0 < (l₁.foldl (closeOne s.now) (scanState m s).1).connections.countP
        (fun x => !x.closed && decide (x.pid = c.pid)) :=
      List.countP_pos_iff.mpr ⟨c, hc_mem, hpred⟩
    omega
  · intro h hh
    constructor
    · rw [hinvf.host_eq]
      unfold hostOpenCount
      have hpred : (!c.closed
          && decide (hostKeyOf c = some (hostKey h c.remote_port))) = true := by
        simp [hc_open, hostKeyOf, hh]
      have hpos : 0 < (l₁.foldl (closeOne s.now) (scanState m s).1).connections.countP
          (fun x => !x.closed && decide (hostKeyOf x = some (hostKey h c.remote_port))) :=
        List.countP_pos_iff.mpr ⟨c, hc_mem, hpred⟩
      omega
    · rw [hinvf.ph_eq]
      unfold phOpenCount
      have hpred : (!c.closed
          && decide (phKeyOf c = some (c.pid, h, c.remote_port))) = true := by
        simp [hc_open, phKeyOf, hh]
      have hpos : 0 < (l₁.foldl (closeOne s.now) (scanState m s).1).connections.countP
          (fun x => !x.closed && decide (phKeyOf x = some (c.pid, h, c.remote_port))) :=
        List.countP_pos_iff.mpr ⟨c, hc_mem, hpred⟩
      omega

/-- Witness for C10 at the concrete two-tick state: the connection opened in
tick 1 is closed by the empty tick 2 snapshot, and at that moment its pid
counter is 1. -/
theorem close_decrement_never_underflows_witness :
    ∃ c, (([] : List Nat).foldl (closeOne exSnap2.now)
        (scanState exM1 exSnap2).1).connections.find?
        (fun x => decide (x.id = 1)) = some c ∧
      c.closed = false ∧
      1 ≤ (([] : List Nat).foldl (closeOne exSnap2.now)
          (scanState exM1 exSnap2).1).metrics.current_concurrent_by_pid c.pid ∧
      (∀ h, c.remote_hostname = some h →
        1 ≤ (([] : List Nat).foldl (closeOne exSnap2.now)
            (scanState exM1 exSnap2).1).metrics.current_concurrent_by_host
            (hostKey h c.remote_port) ∧
        1 ≤ (([] : List Nat).foldl (closeOne exSnap2.now)
            (scanState exM1 exSnap2).1).metrics.current_concurrent_by_process_host
            (c.pid, h, c.remote_port)) :=
  close_decrement_never_underflows exM1 exSnap2
    (ReachableFresh.step (ConnectionMonitor.initState 0) exSnap1
      (ReachableFresh.init 0) (by decide))
    (by decide) [] 1 [] (by decide)

/-! ### Claim C9: running maxima are high-water marks -/

/-- States reachable by successful refreshes and resets from a new monitor,
with no assumption on the random id generator (the running-maximum facts do
not need one). -/
inductive Reachable : ConnectionMonitor → Prop where
  | init (t0 : SystemTime) : Reachable (ConnectionMonitor.initState t0)
  | step (m : ConnectionMonitor) (s : Snapshot) : Reachable m → Reachable (refreshOk m s)
  | reset (m : ConnectionMonitor) (now : SystemTime) : Reachable m →
      Reachable (m.resetState now)

/-- Every current-concurrent counter is bounded by its running maximum, in all
three key spaces. -/
def CurLeMax (m : ConnectionMonitor) : Prop :=
  (∀ p, m.metrics.current_concurrent_by_pid p ≤ m.metrics.max_concurrent_by_pid p) ∧
  (∀ k, m.metrics.current_concurrent_by_host k ≤ m.metrics.max_concurrent_by_host k) ∧
  (∀ k, m.metrics.current_concurrent_by_process_host k
    ≤ m.metrics.max_concurrent_by_process_host k)

/-- Pointwise monotonicity of the running maxima between two states, in all
three key spaces. -/
def MaxMono (m m' : ConnectionMonitor) : Prop :=
  (∀ p, m.metrics.max_concurrent_by_pid p ≤ m'.metrics.max_concurrent_by_pid p) ∧
  (∀ k, m.metrics.max_concurrent_by_host k ≤ m'.metrics.max_concurrent_by_host k) ∧
  (∀ k, m.metrics.max_concurrent_by_process_host k
    ≤ m'.metrics.max_concurrent_by_process_host k)

theorem maxMono_refl (m : ConnectionMonitor) : MaxMono m m :=
  ⟨fun _ => le_refl _, fun _ => le_refl _, fun _ => le_refl _⟩

theorem maxMono_trans {a b c : ConnectionMonitor} (h1 : MaxMono a b) (h2 : MaxMono b c) :
    MaxMono a c :=
  ⟨fun p => le_trans (h1.1 p) (h2.1 p), fun k => le_trans (h1.2.1 k) (h2.2.1 k),
   fun k => le_trans (h1.2.2 k) (h2.2.2 k)⟩

theorem createConn_max_pid (m : ConnectionMonitor) (pid : Nat) (e : SocketEntry)
    (now : SystemTime) :
    (createConn m pid e now).metrics.max_concurrent_by_pid
      = (bumpWithMax m.metrics.total_connections_by_pid
          m.metrics.current_concurrent_by_pid m.metrics.max_concurrent_by_pid pid).2.2 := rfl

theorem createConn_host_fields_none (m : ConnectionMonitor) (pid : Nat) (e : SocketEntry)
    (now : SystemTime) (hh : e.hostname = none) :
    (createConn m pid e now).metrics.max_concurrent_by_host
        = m.metrics.max_concurrent_by_host ∧
    (createConn m pid e now).metrics.max_concurrent_by_process_host
        = m.metrics.max_concurrent_by_process_host := by
  unfold createConn
  rw [hh]
  exact ⟨rfl, rfl⟩

theorem createConn_host_fields_some (m : ConnectionMonitor) (pid : Nat) (e : SocketEntry)
    (now : SystemTime) (h : String) (hh : e.hostname = some h) :
    ((createConn m pid e now).metrics.current_concurrent_by_host
        = (bumpWithMax m.metrics.total_connections_by_host
            m.metrics.current_concurrent_by_host m.metrics.max_concurrent_by_host
            (hostKey h e.remote_port)).2.1 ∧
      (createConn m pid e now).metrics.max_concurrent_by_host
        = (bumpWithMax m.metrics.total_connections_by_host
            m.metrics.current_concurrent_by_host m.metrics.max_concurrent_by_host
            (hostKey h e.remote_port)).2.2) ∧
    ((createConn m pid e now).metrics.current_concurrent_by_process_host
        = (bumpWithMax m.metrics.total_connections_by_process_host
            m.metrics.current_concurrent_by_process_host
            m.metrics.max_concurrent_by_process_host (pid, h, e.remote_port)).2.1 ∧
      (createConn m pid e now).metrics.max_concurrent_by_process_host
        = (bumpWithMax m.metrics.total_connections_by_process_host
            m.metrics.current_concurrent_by_process_host
            m.metrics.max_concurrent_by_process_host (pid, h, e.remote_port)).2.2) := by
  unfold createConn
  rw [hh]
  exact ⟨⟨rfl, rfl⟩, rfl, rfl⟩

theorem createConn_curLeMax (m : ConnectionMonitor) (pid : Nat) (e : SocketEntry)
    (now : SystemTime) (hc : CurLeMax m) :
    CurLeMax (createConn m pid e now) ∧ MaxMono m (createConn m pid e now) := by
  obtain ⟨h1, h2, h3⟩ := hc
  cases hh : e.hostname with
  | none =>
    obtain ⟨hmx, hmxp⟩ := createConn_host_fields_none m pid e now hh
    refine ⟨⟨?_, ?_, ?_⟩, ?_, ?_, ?_⟩
    · intro p
      have hb := bumpWithMax_cur_le_max m.metrics.total_connections_by_pid
        m.metrics.current_concurrent_by_pid m.metrics.max_concurrent_by_pid pid h1 p
      rw [bumpWithMax_cur] at hb
      rw [createConn_cur_pid, createConn_max_pid]
      exact hb
    · intro k
      rw [createConn_cur_host_none m pid e now hh, hmx]
      exact h2 k
    · intro k
      rw [createConn_cur_ph_none m pid e now hh, hmxp]
      exact h3 k
    · intro p
      rw [createConn_max_pid]
      exact bumpWithMax_max_mono _ _ _ pid p
    · intro k
      rw [hmx]
    · intro k
      rw [hmxp]
  | some h =>
    obtain ⟨⟨hch, hmh⟩, hcp, hmp⟩ := createConn_host_fields_some m pid e now h hh
    refine ⟨⟨?_, ?_, ?_⟩, ?_, ?_, ?_⟩
    · intro p
      have hb := bumpWithMax_cur_le_max m.metrics.total_connections_by_pid
        m.metrics.current_concurrent_by_pid m.metrics.max_concurrent_by_pid pid h1 p
      rw [bumpWithMax_cur] at hb
      rw [createConn_cur_pid, createConn_max_pid]
      exact hb
    · intro k
      rw [hch, hmh]
      exact bumpWithMax_cur_le_max _ _ _ _ h2 k
    · intro k
      rw [hcp, hmp]
      exact bumpWithMax_cur_le_max _ _ _ _ h3 k
    · intro p
      rw [createConn_max_pid]
      exact bumpWithMax_max_mono _ _ _ pid p
    · intro k
      rw [hmh]
      exact bumpWithMax_max_mono _ _ _ _ k
    · intro k
      rw [hmp]
      exact bumpWithMax_max_mono _ _ _ _ k

theorem closeApply_curLeMax (m : ConnectionMonitor) (c : Connection) (now : SystemTime)
    (hc : CurLeMax m) : CurLeMax (closeApply m c now) ∧ MaxMono m (closeApply m c now) := by
  obtain ⟨h1, h2, h3⟩ := hc
  obtain ⟨hmx1, hmx2, hmx3, _, _, _⟩ := closeApply_max m c now
  refine ⟨⟨?_, ?_, ?_⟩, ?_, ?_, ?_⟩
  · intro p
    rw [closeApply_cur_pid, hmx1]
    by_cases hp : p = c.pid
    · subst hp
      rw [upd_same]
      exact le_trans (Nat.sub_le _ _) (h1 _)
    · rw [upd_other _ _ _ _ hp]
      exact h1 p
  · intro k
    rw [hmx2]
    cases hh : c.remote_hostname with
    | none =>
      rw [closeApply_cur_host_none m c now hh]
      exact h2 k
    | some h =>
      rw [closeApply_cur_host_some m c now h hh]
      by_cases hk : k = hostKey h c.remote_port
      · subst hk
        rw [upd_same]
        exact le_trans (Nat.sub_le _ _) (h2 _)
      · rw [upd_other _ _ _ _ hk]
        exact h2 k
  · intro k
    rw [hmx3]
    cases hh : c.remote_hostname with
    | none =>
      rw [closeApply_cur_ph_none m c now hh]
      exact h3 k
    | some h =>
      rw [closeApply_cur_ph_some m c now h hh]
      by_cases hk : k = (c.pid, h, c.remote_port)
      · subst hk
        rw [upd_same]
        exact le_trans (Nat.sub_le _ _) (h3 _)
      · rw [upd_other _ _ _ _ hk]
        exact h3 k
  · intro p
    rw [hmx1]
  · intro k
    rw [hmx2]
  · intro k
    rw [hmx3]

theorem processEntry_curLeMax (procs : Nat → Option ProcInfo) (now : SystemTime)
    (st : ConnectionMonitor × List Nat) (e : SocketEntry) (hc : CurLeMax st.1) :
    CurLeMax (processEntry procs now st e).1 ∧ MaxMono st.1 (processEntry procs now st e).1 := by
  obtain ⟨m, seen⟩ := st
  unfold processEntry
  dsimp only
  cases hpids : e.pids with
  | nil => exact ⟨hc, maxMono_refl m⟩
  | cons pid rest =>
    dsimp only
    have hupi : ∀ (m' : ConnectionMonitor), CurLeMax m' →
        CurLeMax (updateProcessInfo procs now m' pid) ∧
        MaxMono m' (updateProcessInfo procs now m' pid) := by
      intro m' hcm
      obtain ⟨_, hcu2, hmu3, _, hcu5, hmu6, _, hcu8, hmu9⟩ :=
        updateProcessInfo_counters procs now m' pid
      refine ⟨⟨?_, ?_, ?_⟩, ?_, ?_, ?_⟩
      · intro p
        rw [hcu2, hmu3]
        exact hcm.1 p
      · intro k
        rw [hcu5, hmu6]
        exact hcm.2.1 k
      · intro k
        rw [hcu8, hmu9]
        exact hcm.2.2 k
      · intro p
        rw [hmu3]
      · intro k
        rw [hmu6]
      · intro k
        rw [hmu9]
    cases hfind : findConn m.connections pid e with
    | some c =>
      dsimp only
      have hc1 : CurLeMax { m with connections := updateStateAt m.connections c.id e.state now } :=
        hc
      obtain ⟨hres, hmono⟩ := hupi _ hc1
      exact ⟨hres, hmono⟩
    | none =>
      dsimp only
      obtain ⟨hc1, hm1⟩ := createConn_curLeMax m pid e now hc
      obtain ⟨hres, hmono⟩ := hupi _ hc1
      exact ⟨hres, maxMono_trans hm1 hmono⟩

theorem foldEntries_curLeMax (procs : Nat → Option ProcInfo) (now : SystemTime)
    (es : List SocketEntry) (st : ConnectionMonitor × List Nat) (hc : CurLeMax st.1) :
    CurLeMax (es.foldl (processEntry procs now) st).1 ∧
    MaxMono st.1 (es.foldl (processEntry procs now) st).1 := by
  induction es generalizing st with
  | nil => exact ⟨hc, maxMono_refl st.1⟩
  | cons e es ih =>
    rw [List.foldl_cons]
    obtain ⟨hc1, hm1⟩ := processEntry_curLeMax procs now st e hc
    obtain ⟨hc2, hm2⟩ := ih (processEntry procs now st e) hc1
    exact ⟨hc2, maxMono_trans hm1 hm2⟩

theorem closeFold_curLeMax (now : SystemTime) (l : List Nat) (m : ConnectionMonitor)
    (hc : CurLeMax m) :
    CurLeMax (l.foldl (closeOne now) m) ∧ MaxMono m (l.foldl (closeOne now) m) := by
  induction l generalizing m with
  | nil => exact ⟨hc, maxMono_refl m⟩
  | cons cid l ih =>
    rw [List.foldl_cons]
    have hstep : CurLeMax (closeOne now m cid) ∧ MaxMono m (closeOne now m cid) := by
      unfold closeOne
      cases hfind : m.connections.find? (fun c => decide (c.id = cid)) with
      | none => exact ⟨hc, maxMono_refl m⟩
      | some c => exact closeApply_curLeMax m c now hc
    obtain ⟨hc1, hm1⟩ := hstep
    obtain ⟨hc2, hm2⟩ := ih (closeOne now m cid) hc1
    exact ⟨hc2, maxMono_trans hm1 hm2⟩

theorem refreshOk_curLeMax (m : ConnectionMonitor) (s : Snapshot) (hc : CurLeMax m) :
    CurLeMax (refreshOk m s) ∧ MaxMono m (refreshOk m s) := by
  obtain ⟨hc1, hm1⟩ := foldEntries_curLeMax s.procs s.now (entriesOf s) (m, []) hc
  obtain ⟨hc2, hm2⟩ := closeFold_curLeMax s.now
    (toCloseList (scanState m s).1 (scanState m s).2) (scanState m s).1 hc1
  exact ⟨⟨hc2.1, hc2.2.1, hc2.2.2⟩,
    maxMono_trans hm1 ⟨hm2.1, hm2.2.1, hm2.2.2⟩⟩

theorem curLeMax_initState (t0 : SystemTime) : CurLeMax (ConnectionMonitor.initState t0) :=
  ⟨fun _ => le_refl _, fun _ => le_refl _, fun _ => le_refl _⟩

theorem curLeMax_resetState (m : ConnectionMonitor) (now : SystemTime) :
    CurLeMax (m.resetState now) :=
  ⟨fun _ => le_refl _, fun _ => le_refl _, fun _ => le_refl _⟩

theorem curLeMax_of_reachable (m : ConnectionMonitor) (h : Reachable m) : CurLeMax m := by
  induction h with
  | init t0 => exact curLeMax_initState t0
  | step m s _ ih => exact (refreshOk_curLeMax m s ih).1
  | reset m now _ _ => exact curLeMax_resetState m now

theorem createConn_maxMono (m : ConnectionMonitor) (pid : Nat) (e : SocketEntry)
    (now : SystemTime) : MaxMono m (createConn m pid e now) := by
  cases hh : e.hostname with
  | none =>
    obtain ⟨hmx, hmxp⟩ := createConn_host_fields_none m pid e now hh
    refine ⟨?_, ?_, ?_⟩
    · intro p
      rw [createConn_max_pid]
      exact bumpWithMax_max_mono _ _ _ pid p
    · intro k
      rw [hmx]
    · intro k
      rw [hmxp]
  | some h =>
    obtain ⟨⟨_, hmh⟩, _, hmp⟩ := createConn_host_fields_some m pid e now h hh
    refine ⟨?_, ?_, ?_⟩
    · intro p
      rw [createConn_max_pid]
      exact bumpWithMax_max_mono _ _ _ pid p
    · intro k
      rw [hmh]
      exact bumpWithMax_max_mono _ _ _ _ k
    · intro k
      rw [hmp]
      exact bumpWithMax_max_mono _ _ _ _ k

theorem updateProcessInfo_maxMono (procs : Nat → Option ProcInfo) (now : SystemTime)
    (m : ConnectionMonitor) (pid : Nat) : MaxMono m (updateProcessInfo procs now m pid) := by
  obtain ⟨_, _, hmu3, _, _, hmu6, _, _, hmu9⟩ := updateProcessInfo_counters procs now m pid
  exact ⟨fun p => by rw [hmu3], fun k => by rw [hmu6], fun k => by rw [hmu9]⟩

theorem processEntry_maxMono (procs : Nat → Option ProcInfo) (now : SystemTime)
    (st : ConnectionMonitor × List Nat) (e : SocketEntry) :
    MaxMono st.1 (processEntry procs now st e).1 := by
  obtain ⟨m, seen⟩ := st
  unfold processEntry
  dsimp only
  cases hpids : e.pids with
  | nil => exact maxMono_refl m
  | cons pid rest =>
    dsimp only
    cases hfind : findConn m.connections pid e with
    | some c =>
      dsimp only
      exact updateProcessInfo_maxMono procs now
        { m with connections := updateStateAt m.connections c.id e.state now } pid
    | none =>
      dsimp only
      exact maxMono_trans (createConn_maxMono m pid e now)
        (updateProcessInfo_maxMono procs now (createConn m pid e now) pid)

theorem foldEntries_maxMono (procs : Nat → Option ProcInfo) (now : SystemTime)
    (es : List SocketEntry) (st : ConnectionMonitor × List Nat) :
    MaxMono st.1 (es.foldl (processEntry procs now) st).1 := by
  induction es generalizing st with
  | nil => exact maxMono_refl st.1
  | cons e es ih =>
    rw [List.foldl_cons]
    exact maxMono_trans (processEntry_maxMono procs now st e)
      (ih (processEntry procs now st e))

theorem closeOne_maxMono (now : SystemTime) (m : ConnectionMonitor) (cid : Nat) :
    MaxMono m (closeOne now m cid) := by
  unfold closeOne
  cases hfind : m.connections.find? (fun c => decide (c.id = cid)) with
  | none => exact maxMono_refl m
  | some c =>
    obtain ⟨hmx1, hmx2, hmx3, _, _, _⟩ := closeApply_max m c now
    exact ⟨fun p => by rw [hmx1], fun k => by rw [hmx2], fun k => by rw [hmx3]⟩

theorem closeFold_maxMono (now : SystemTime) (l : List Nat) (m : ConnectionMonitor) :
    MaxMono m (l.foldl (closeOne now) m) := by
  induction l generalizing m with
  | nil => exact maxMono_refl m
  | cons cid l ih =>
    rw [List.foldl_cons]
    exact maxMono_trans (closeOne_maxMono now m cid) (ih (closeOne now m cid))

theorem refreshOk_maxMono (m : ConnectionMonitor) (s : Snapshot) :
    MaxMono m (refreshOk m s) := by
  have h1 := foldEntries_maxMono s.procs s.now (entriesOf s) (m, [])
  have h2 := closeFold_maxMono s.now
    (toCloseList (scanState m s).1 (scanState m s).2) (scanState m s).1
  have h12 := maxMono_trans h1 h2
  exact ⟨h12.1, h12.2.1, h12.2.2⟩

/-- Claim C9: in each of the three key spaces (pid, host:port string, and
(pid, host, port) triple) the running-maximum counter never decreases across
a refresh from any state, and in every reachable registry state (between
resets) each running maximum is at least the current-concurrent counter for
its key. -/
theorem running_max_is_high_water_mark :
    (∀ (m : ConnectionMonitor) (s : Snapshot), MaxMono m (refreshOk m s)) ∧
    (∀ m : ConnectionMonitor, Reachable m → CurLeMax m) :=
  ⟨fun m s => refreshOk_maxMono m s, fun m h => curLeMax_of_reachable m h⟩

/-- Witness for C9: monotonicity across the concrete first tick and the
bound at the concrete one-tick state. -/
theorem running_max_is_high_water_mark_witness :
    MaxMono (ConnectionMonitor.initState 0) exM1 ∧ CurLeMax exM1 :=
  ⟨running_max_is_high_water_mark.1 (ConnectionMonitor.initState 0) exSnap1,
   running_max_is_high_water_mark.2 exM1
     (Reachable.step (ConnectionMonitor.initState 0) exSnap1 (Reachable.init 0))⟩

/-! ### Claim C4: which counters a creation and a close touch -/

theorem createConn_tot_host_none (m : ConnectionMonitor) (pid : Nat) (e : SocketEntry)
    (now : SystemTime) (hh : e.hostname = none) :
    (createConn m pid e now).metrics.total_connections_by_host
      = m.metrics.total_connections_by_host := by
  rw [createConn_tot_host, hh]

theorem createConn_tot_host_some (m : ConnectionMonitor) (pid : Nat) (e : SocketEntry)
    (now : SystemTime) (h : String) (hh : e.hostname = some h) :
    (createConn m pid e now).metrics.total_connections_by_host
      = upd m.metrics.total_connections_by_host (hostKey h e.remote_port)
          (m.metrics.total_connections_by_host (hostKey h e.remote_port) + 1) := by
  rw [createConn_tot_host, hh]

theorem createConn_tot_ph_none (m : ConnectionMonitor) (pid : Nat) (e : SocketEntry)
    (now : SystemTime) (hh : e.hostname = none) :
    (createConn m pid e now).metrics.total_connections_by_process_host
      = m.metrics.total_connections_by_process_host := by
  rw [createConn_tot_ph, hh]

theorem createConn_tot_ph_some (m : ConnectionMonitor) (pid : Nat) (e : SocketEntry)
    (now : SystemTime) (h : String) (hh : e.hostname = some h) :
    (createConn m pid e now).metrics.total_connections_by_process_host
      = upd m.metrics.total_connections_by_process_host (pid, h, e.remote_port)
          (m.metrics.total_connections_by_process_host (pid, h, e.remote_port) + 1) := by
  rw [createConn_tot_ph, hh]

theorem processEntry_create_eq (procs : Nat → Option ProcInfo) (now : SystemTime)
    (m : ConnectionMonitor) (seen : List Nat) (e : SocketEntry) (pid : Nat)
    (rest : List Nat) (hpids : e.pids = pid :: rest)
    (hfind : findConn m.connections pid e = none) :
    (processEntry procs now (m, seen) e).1
      = updateProcessInfo procs now (createConn m pid e now) pid := by
  unfold processEntry
  dsimp only
  rw [hpids]
  dsimp only
  rw [hfind]

/-- Claim C4: a refresh step that creates a new connection (the socket row
matched no existing connection) always increments total-opened and
current-concurrent for the pid key, and increments total-opened and
current-concurrent for the host:port key and the (pid, host, port) key if and
only if a hostname was resolved — with no hostname the entire host-level and
process-host-level counter maps (totals, currents and maxima) are untouched.
Symmetrically, closing a connection decrements the host-level and
process-host-level current-concurrent counters exactly when the connection
has a resolved hostname, while the pid current-concurrent counter is always
decremented. -/
theorem creation_and_close_touch_counters :
    (∀ (procs : Nat → Option ProcInfo) (now : SystemTime) (m : ConnectionMonitor)
        (seen : List Nat) (e : SocketEntry) (pid : Nat) (rest : List Nat),
      e.pids = pid :: rest →
      findConn m.connections pid e = none →
      ((processEntry procs now (m, seen) e).1.metrics.total_connections_by_pid pid
          = m.metrics.total_connections_by_pid pid + 1 ∧
       (processEntry procs now (m, seen) e).1.metrics.current_concurrent_by_pid pid
          = m.metrics.current_concurrent_by_pid pid + 1) ∧
      (∀ h, e.hostname = some h →
        (processEntry procs now (m, seen) e).1.metrics.total_connections_by_host
            (hostKey h e.remote_port)
          = m.metrics.total_connections_by_host (hostKey h e.remote_port) + 1 ∧
        (processEntry procs now (m, seen) e).1.metrics.current_concurrent_by_host
            (hostKey h e.remote_port)
          = m.metrics.current_concurrent_by_host (hostKey h e.remote_port) + 1 ∧
        (processEntry procs now (m, seen) e).1.metrics.total_connections_by_process_host
            (pid, h, e.remote_port)
          = m.metrics.total_connections_by_process_host (pid, h, e.remote_port) + 1 ∧
        (processEntry procs now (m, seen) e).1.metrics.current_concurrent_by_process_host
            (pid, h, e.remote_port)
          = m.metrics.current_concurrent_by_process_host (pid, h, e.remote_port) + 1) ∧
      (e.hostname = none →
        (processEntry procs now (m, seen) e).1.metrics.total_connections_by_host
            = m.metrics.total_connections_by_host ∧
        (processEntry procs now (m, seen) e).1.metrics.current_concurrent_by_host
            = m.metrics.current_concurrent_by_host ∧
        (processEntry procs now (m, seen) e).1.metrics.max_concurrent_by_host
            = m.metrics.max_concurrent_by_host ∧
        (processEntry procs now (m, seen) e).1.metrics.total_connections_by_process_host
            = m.metrics.total_connections_by_process_host ∧
        (processEntry procs now (m, seen) e).1.metrics.current_concurrent_by_process_host
            = m.metrics.current_concurrent_by_process_host ∧
        (processEntry procs now (m, seen) e).1.metrics.max_concurrent_by_process_host
            = m.metrics.max_concurrent_by_process_host)) ∧
    (∀ (now : SystemTime) (m : ConnectionMonitor) (c : Connection),
      (closeApply m c now).metrics.current_concurrent_by_pid c.pid
          = m.metrics.current_concurrent_by_pid c.pid - 1 ∧
      (c.remote_hostname = none →
        (closeApply m c now).metrics.current_concurrent_by_host
            = m.metrics.current_concurrent_by_host ∧
        (closeApply m c now).metrics.current_concurrent_by_process_host
            = m.metrics.current_concurrent_by_process_host) ∧
      (∀ h, c.remote_hostname = some h →
        (closeApply m c now).metrics.current_concurrent_by_host (hostKey h c.remote_port)
            = m.metrics.current_concurrent_by_host (hostKey h c.remote_port) - 1 ∧
        (closeApply m c now).metrics.current_concurrent_by_process_host
            (c.pid, h, c.remote_port)
            = m.metrics.current_concurrent_by_process_host (c.pid, h, c.remote_port) - 1)) := by
  constructor
  · intro procs now m seen e pid rest hpids hfind
    rw [processEntry_create_eq procs now m seen e pid rest hpids hfind]
    obtain ⟨hu1, hu2, hu3, hu4, hu5, hu6, hu7, hu8, hu9⟩ :=
      updateProcessInfo_counters procs now (createConn m pid e now) pid
    refine ⟨⟨?_, ?_⟩, ?_, ?_⟩
    · rw [hu1, createConn_tot_pid, upd_same]
    · rw [hu2, createConn_cur_pid, upd_same]
    · intro h hh
      refine ⟨?_, ?_, ?_, ?_⟩
      · rw [hu4, createConn_tot_host_some m pid e now h hh, upd_same]
      · rw [hu5, createConn_cur_host_some m pid e now h hh, upd_same]
      · rw [hu7, createConn_tot_ph_some m pid e now h hh, upd_same]
      · rw [hu8, createConn_cur_ph_some m pid e now h hh, upd_same]
    · intro hh
      obtain ⟨hmx, hmxp⟩ := createConn_host_fields_none m pid e now hh
      refine ⟨?_, ?_, ?_, ?_, ?_, ?_⟩
      · rw [hu4, createConn_tot_host_none m pid e now hh]
      · rw [hu5, createConn_cur_host_none m pid e now hh]
      · rw [hu6, hmx]
      · rw [hu7, createConn_tot_ph_none m pid e now hh]
      · rw [hu8, createConn_cur_ph_none m pid e now hh]
      · rw [hu9, hmxp]
  · intro now m c
    refine ⟨?_, ?_, ?_⟩
    · rw [closeApply_cur_pid, upd_same]
    · intro hh
      exact ⟨closeApply_cur_host_none m c now hh, closeApply_cur_ph_none m c now hh⟩
    · intro h hh
      constructor
      · rw [closeApply_cur_host_some m c now h hh, upd_same]
      · rw [closeApply_cur_ph_some m c now h hh, upd_same]

/-- The hostname-resolving socket row used by the C4 witness. -/
def exEntryH : SocketEntry :=
  { pids := [10], local_port := 5000, remote_port := 443, remote_addr := ⟨"9.9.9.9"⟩,
    state := .established, hostname := some "api.example", fresh_id := 7 }

/-- Witness for C4: the creation part evaluated on a fresh monitor and a
hostname-resolving socket row. -/
theorem creation_and_close_touch_counters_witness :
    ((processEntry noProcs 1 (ConnectionMonitor.initState 0, [])
          exEntryH).1.metrics.total_connections_by_pid 10
        = (ConnectionMonitor.initState 0).metrics.total_connections_by_pid 10 + 1 ∧
      (processEntry noProcs 1 (ConnectionMonitor.initState 0, [])
          exEntryH).1.metrics.current_concurrent_by_pid 10
        = (ConnectionMonitor.initState 0).metrics.current_concurrent_by_pid 10 + 1) ∧
    (∀ h, exEntryH.hostname = some h →
      (processEntry noProcs 1 (ConnectionMonitor.initState 0, [])
          exEntryH).1.metrics.total_connections_by_host (hostKey h exEntryH.remote_port)
        = (ConnectionMonitor.initState 0).metrics.total_connections_by_host
            (hostKey h exEntryH.remote_port) + 1 ∧
      (processEntry noProcs 1 (ConnectionMonitor.initState 0, [])
          exEntryH).1.metrics.current_concurrent_by_host (hostKey h exEntryH.remote_port)
        = (ConnectionMonitor.initState 0).metrics.current_concurrent_by_host
            (hostKey h exEntryH.remote_port) + 1 ∧
      (processEntry noProcs 1 (ConnectionMonitor.initState 0, [])
          exEntryH).1.metrics.total_connections_by_process_host
            (10, h, exEntryH.remote_port)
        = (ConnectionMonitor.initState 0).metrics.total_connections_by_process_host
            (10, h, exEntryH.remote_port) + 1 ∧
      (processEntry noProcs 1 (ConnectionMonitor.initState 0, [])
          exEntryH).1.metrics.current_concurrent_by_process_host
            (10, h, exEntryH.remote_port)
        = (ConnectionMonitor.initState 0).metrics.current_concurrent_by_process_host
            (10, h, exEntryH.remote_port) + 1) ∧
    (exEntryH.hostname = none →
      (processEntry noProcs 1 (ConnectionMonitor.initState 0, [])
          exEntryH).1.metrics.total_connections_by_host
        = (ConnectionMonitor.initState 0).metrics.total_connections_by_host ∧
      (processEntry noProcs 1 (ConnectionMonitor.initState 0, [])
          exEntryH).1.metrics.current_concurrent_by_host
        = (ConnectionMonitor.initState 0).metrics.current_concurrent_by_host ∧
      (processEntry noProcs 1 (ConnectionMonitor.initState 0, [])
          exEntryH).1.metrics.max_concurrent_by_host
        = (ConnectionMonitor.initState 0).metrics.max_concurrent_by_host ∧
      (processEntry noProcs 1 (ConnectionMonitor.initState 0, [])
          exEntryH).1.metrics.total_connections_by_process_host
        = (ConnectionMonitor.initState 0).metrics.total_connections_by_process_host ∧
      (processEntry noProcs 1 (ConnectionMonitor.initState 0, [])
          exEntryH).1.metrics.current_concurrent_by_process_host
        = (ConnectionMonitor.initState 0).metrics.current_concurrent_by_process_host ∧
      (processEntry noProcs 1 (ConnectionMonitor.initState 0, [])
          exEntryH).1.metrics.max_concurrent_by_process_host
        = (ConnectionMonitor.initState 0).metrics.max_concurrent_by_process_host) :=
  creation_and_close_touch_counters.1 noProcs 1 (ConnectionMonitor.initState 0) []
    exEntryH 10 [] rfl (by decide)

end TcpCount
